import Mathlib

/-!
Verification development for the `spacetime_physics` engine
(`spacetime_physics/src/{math,engine,tables,utils}`).

Scalars: the Rust code computes in `f32`; we embed scalars as `ℚ`
(idealized exact arithmetic).  The `f32` library intrinsics that have no
exact rational counterpart (`sqrt`, `sin`, `cos`) are passed explicitly as
a `FloatFns` record, so all definitions stay computable and can be
evaluated on concrete inputs by instantiating the record.

Where `f32` behaviour differs from total `ℚ` arithmetic in a way a claim
depends on (division by zero producing a non-finite float), the embedding
carries an explicit predicate marking that the division with zero
denominator is reached, rather than relying on Lean's `x / 0 = 0`
convention.
-/

namespace SpacetimePhysics

/-- The `f32` unary intrinsics used by the engine, passed as parameters. -/
structure FloatFns where
  sqrt : ℚ → ℚ
  sin : ℚ → ℚ
  cos : ℚ → ℚ

/-- `f32::EPSILON` = 2⁻²³. -/
def EPSILON : ℚ := 1 / 2 ^ 23

/-- The `f32` value of `π / 180`, the factor applied by `f32::to_radians`
(9370165 · 2⁻²⁹ is the nearest `f32` to π/180). -/
def DEG_TO_RAD : ℚ := 9370165 / 2 ^ 29

/-- `math/vec3.rs`: `pub struct Vec3 { x, y, z : f32 }`. -/
structure Vec3 where
  x : ℚ
  y : ℚ
  z : ℚ
deriving DecidableEq, Repr

namespace Vec3

/-- `Vec3::ZERO`. -/
def ZERO : Vec3 := ⟨0, 0, 0⟩

/-- `Vec3::splat(value)`. -/
def splat (value : ℚ) : Vec3 := ⟨value, value, value⟩

/-- `Vec3::length_squared`. -/
def length_squared (v : Vec3) : ℚ := v.x * v.x + v.y * v.y + v.z * v.z

/-- `Vec3::length`: `(x*x + y*y + z*z).sqrt()`. -/
def length (fns : FloatFns) (v : Vec3) : ℚ := fns.sqrt v.length_squared

/-- `Vec3::dot`. -/
def dot (v w : Vec3) : ℚ := v.x * w.x + v.y * w.y + v.z * w.z

/-- `Vec3::cross`. -/
def cross (v w : Vec3) : Vec3 :=
  ⟨v.y * w.z - v.z * w.y, v.z * w.x - v.x * w.z, v.x * w.y - v.y * w.x⟩

instance : Add Vec3 := ⟨fun v w => ⟨v.x + w.x, v.y + w.y, v.z + w.z⟩⟩

instance : Sub Vec3 := ⟨fun v w => ⟨v.x - w.x, v.y - w.y, v.z - w.z⟩⟩

instance : Neg Vec3 := ⟨fun v => ⟨-v.x, -v.y, -v.z⟩⟩

/-- `impl Mul for Vec3` (componentwise). -/
instance : Mul Vec3 := ⟨fun v w => ⟨v.x * w.x, v.y * w.y, v.z * w.z⟩⟩

/-- `impl Mul<f32> for Vec3`. -/
instance : HMul Vec3 ℚ Vec3 := ⟨fun v s => ⟨v.x * s, v.y * s, v.z * s⟩⟩

/-- `impl Mul<Vec3> for f32`. -/
instance : HMul ℚ Vec3 Vec3 := ⟨fun s v => ⟨s * v.x, s * v.y, s * v.z⟩⟩

/-- `impl Div<f32> for Vec3`. -/
instance : HDiv Vec3 ℚ Vec3 := ⟨fun v s => ⟨v.x / s, v.y / s, v.z / s⟩⟩

/-- `Vec3::normalize`: divide by `length`, zero-length falls back to `ZERO`. -/
def normalize (fns : FloatFns) (v : Vec3) : Vec3 :=
  let len := v.length fns
  if len = 0 then ZERO else ⟨v.x / len, v.y / len, v.z / len⟩

end Vec3

/-- `math/mat3.rs`: `pub struct Mat3 { m11 .. m33 : f32 }`. -/
structure Mat3 where
  m11 : ℚ
  m12 : ℚ
  m13 : ℚ
  m21 : ℚ
  m22 : ℚ
  m23 : ℚ
  m31 : ℚ
  m32 : ℚ
  m33 : ℚ
deriving DecidableEq, Repr

namespace Mat3

/-- `Mat3::IDENTITY`. -/
def IDENTITY : Mat3 := ⟨1, 0, 0, 0, 1, 0, 0, 0, 1⟩

/-- `Mat3::ZERO`. -/
def ZERO : Mat3 := ⟨0, 0, 0, 0, 0, 0, 0, 0, 0⟩

/-- `Mat3::transpose`. -/
def transpose (m : Mat3) : Mat3 :=
  ⟨m.m11, m.m21, m.m31, m.m12, m.m22, m.m32, m.m13, m.m23, m.m33⟩

/-- `impl Mul<Mat3> for Mat3`. -/
instance : Mul Mat3 :=
  ⟨fun a b =>
    ⟨a.m11 * b.m11 + a.m12 * b.m21 + a.m13 * b.m31,
     a.m11 * b.m12 + a.m12 * b.m22 + a.m13 * b.m32,
     a.m11 * b.m13 + a.m12 * b.m23 + a.m13 * b.m33,
     a.m21 * b.m11 + a.m22 * b.m21 + a.m23 * b.m31,
     a.m21 * b.m12 + a.m22 * b.m22 + a.m23 * b.m32,
     a.m21 * b.m13 + a.m22 * b.m23 + a.m23 * b.m33,
     a.m31 * b.m11 + a.m32 * b.m21 + a.m33 * b.m31,
     a.m31 * b.m12 + a.m32 * b.m22 + a.m33 * b.m32,
     a.m31 * b.m13 + a.m32 * b.m23 + a.m33 * b.m33⟩⟩

/-- `impl Mul<Mat3> for f32`. -/
instance : HMul ℚ Mat3 Mat3 :=
  ⟨fun s m =>
    ⟨s * m.m11, s * m.m12, s * m.m13,
     s * m.m21, s * m.m22, s * m.m23,
     s * m.m31, s * m.m32, s * m.m33⟩⟩

/-- `impl Mul<Vec3> for Mat3`. -/
instance : HMul Mat3 Vec3 Vec3 :=
  ⟨fun m v =>
    ⟨m.m11 * v.x + m.m12 * v.y + m.m13 * v.z,
     m.m21 * v.x + m.m22 * v.y + m.m23 * v.z,
     m.m31 * v.x + m.m32 * v.y + m.m33 * v.z⟩⟩

end Mat3

/-- `math/quat.rs`: `pub struct Quat { x, y, z, w : f32 }`. -/
structure Quat where
  x : ℚ
  y : ℚ
  z : ℚ
  w : ℚ
deriving DecidableEq, Repr

namespace Quat

/-- `Quat::ZERO`. -/
def ZERO : Quat := ⟨0, 0, 0, 0⟩

/-- `Quat::IDENTITY`. -/
def IDENTITY : Quat := ⟨0, 0, 0, 1⟩

/-- `Quat::from_xyz(vec, w)`. -/
def from_xyz (vec : Vec3) (w : ℚ) : Quat := ⟨vec.x, vec.y, vec.z, w⟩

/-- `Quat::xyz`. -/
def xyz (q : Quat) : Vec3 := ⟨q.x, q.y, q.z⟩

/-- `Quat::inverse` (conjugate). -/
def inverse (q : Quat) : Quat := ⟨-q.x, -q.y, -q.z, q.w⟩

/-- `Quat::normalize`: divide every component by
`sqrt(x² + y² + z² + w²)`; a zero length yields `Quat::ZERO`. -/
def normalize (fns : FloatFns) (q : Quat) : Quat :=
  let len := fns.sqrt (q.x * q.x + q.y * q.y + q.z * q.z + q.w * q.w)
  if len = 0 then ZERO else ⟨q.x / len, q.y / len, q.z / len, q.w / len⟩

/-- `Quat::rotate`: `v + uv·2w + uuv` with `uv = q̂ × v`, `uuv = q̂ × uv`. -/
def rotate (q : Quat) (vec : Vec3) : Vec3 :=
  let uv : Vec3 :=
    ⟨q.y * vec.z - q.z * vec.y, q.z * vec.x - q.x * vec.z, q.x * vec.y - q.y * vec.x⟩
  let uuv : Vec3 :=
    ⟨q.y * uv.z - q.z * uv.y, q.z * uv.x - q.x * uv.z, q.x * uv.y - q.y * uv.x⟩
  vec + (uv * (2 * q.w) : Vec3) + uuv

/-- `Quat::to_mat3`. -/
def to_mat3 (q : Quat) : Mat3 :=
  let x2 := q.x * q.x
  let y2 := q.y * q.y
  let z2 := q.z * q.z
  let xy := q.x * q.y
  let xz := q.x * q.z
  let yz := q.y * q.z
  let wx := q.w * q.x
  let wy := q.w * q.y
  let wz := q.w * q.z
  ⟨1 - 2 * (y2 + z2), 2 * (xy - wz), 2 * (xz + wy),
   2 * (xy + wz), 1 - 2 * (x2 + z2), 2 * (yz - wx),
   2 * (xz - wy), 2 * (yz + wx), 1 - 2 * (x2 + y2)⟩

/-- `Quat::as_radians`: applies `f32::to_radians` (multiplication by the
`f32` constant π/180) to each of the three vector components. -/
def as_radians (q : Quat) : Vec3 :=
  ⟨q.x * DEG_TO_RAD, q.y * DEG_TO_RAD, q.z * DEG_TO_RAD⟩

/-- `Quat::from_scaled_axis(delta_angle)`. -/
def from_scaled_axis (fns : FloatFns) (delta_angle : Vec3) : Quat :=
  let half_angle := delta_angle.length fns * (1 / 2)
  let sin_half_angle := fns.sin half_angle
  let axis := delta_angle.normalize fns
  ⟨axis.x * sin_half_angle, axis.y * sin_half_angle, axis.z * sin_half_angle,
   fns.cos half_angle⟩

/-- `impl Mul<Quat> for Quat` (Hamilton product, source component order). -/
instance : Mul Quat :=
  ⟨fun q o =>
    ⟨q.w * o.x + q.x * o.w + q.y * o.z - q.z * o.y,
     q.w * o.y - q.x * o.z + q.y * o.w + q.z * o.x,
     q.w * o.z + q.x * o.y - q.y * o.x + q.z * o.w,
     q.w * o.w - q.x * o.x - q.y * o.y - q.z * o.z⟩⟩

/-- `impl Mul<Quat> for f32`. -/
instance : HMul ℚ Quat Quat := ⟨fun s q => ⟨s * q.x, s * q.y, s * q.z, s * q.w⟩⟩

instance : Add Quat :=
  ⟨fun q o => ⟨q.x + o.x, q.y + o.y, q.z + o.z, q.w + o.w⟩⟩

end Quat

/-- `tables/rigid_body.rs`: `RigidBodyType`. -/
inductive RigidBodyType where
  | Static
  | Dynamic
  | Kinematic
deriving DecidableEq, Repr

/-- `engine/rigid_body_data.rs`: `RigidBodyData`, with the wrapped
`RigidBody` row flattened into it (fields `position` … `body_type` are the
row; the rest are the per-step engine fields built by
`RigidBodyData::new`). -/
structure RigidBodyData where
  id : ℕ
  body_type : RigidBodyType
  position : Vec3
  rotation : Quat
  linear_velocity : Vec3
  angular_velocity : Vec3
  force : Vec3
  torque : Vec3
  mass : ℚ
  inv_mass : ℚ
  friction_static_coefficient : ℚ
  friction_dynamic_coefficient : ℚ
  restitution_coefficient : ℚ
  inertia_tensor : Mat3
  inv_inertia_tensor : Mat3
  pre_solve_linear_velocity : Vec3
  pre_solve_angular_velocity : Vec3
  previous_position : Vec3
  previous_rotation : Quat
  is_dirty : Bool
deriving DecidableEq, Repr

namespace RigidBodyData

/-- `RigidBody::is_dynamic`. -/
def is_dynamic (b : RigidBodyData) : Bool := b.body_type = RigidBodyType.Dynamic

/-- `RigidBody::is_kinematic`. -/
def is_kinematic (b : RigidBodyData) : Bool := b.body_type = RigidBodyType.Kinematic

/-- `RigidBodyData::effective_mass`. -/
def effective_mass (b : RigidBodyData) : Vec3 := Vec3.splat b.mass

/-- `RigidBodyData::effective_inverse_mass`. -/
def effective_inverse_mass (b : RigidBodyData) : Vec3 := Vec3.splat b.inv_mass

/-- `RigidBodyData::effective_inverse_inertia`: `R · I⁻¹ · Rᵀ`. -/
def effective_inverse_inertia (b : RigidBodyData) : Mat3 :=
  let r := b.rotation.to_mat3
  r * b.inv_inertia_tensor * r.transpose

/-- `RigidBodyData::combine_static_friction`. -/
def combine_static_friction (b o : RigidBodyData) : ℚ :=
  (b.friction_static_coefficient + o.friction_static_coefficient) / 2

/-- `RigidBodyData::combine_dynamic_friction`. -/
def combine_dynamic_friction (b o : RigidBodyData) : ℚ :=
  (b.friction_dynamic_coefficient + o.friction_dynamic_coefficient) / 2

/-- `RigidBodyData::combine_restitution`. -/
def combine_restitution (b o : RigidBodyData) : ℚ :=
  (b.restitution_coefficient + o.restitution_coefficient) / 2

/-- `RigidBodyData::set_position` (marks the body dirty). -/
def set_position (b : RigidBodyData) (position : Vec3) : RigidBodyData :=
  { b with position := position, is_dirty := true }

/-- `RigidBodyData::set_rotation`: stores the *normalized* quaternion and
marks the body dirty. -/
def set_rotation (fns : FloatFns) (b : RigidBodyData) (rotation : Quat) : RigidBodyData :=
  { b with rotation := rotation.normalize fns, is_dirty := true }

/-- `RigidBodyData::set_previous_position`. -/
def set_previous_position (b : RigidBodyData) (position : Vec3) : RigidBodyData :=
  { b with previous_position := position }

/-- `RigidBodyData::set_previous_rotation`. -/
def set_previous_rotation (b : RigidBodyData) (rotation : Quat) : RigidBodyData :=
  { b with previous_rotation := rotation }

/-- `RigidBodyData::set_linear_velocity` (does not mark dirty in the source). -/
def set_linear_velocity (b : RigidBodyData) (velocity : Vec3) : RigidBodyData :=
  { b with linear_velocity := velocity }

/-- `RigidBodyData::set_angular_velocity` (marks dirty). -/
def set_angular_velocity (b : RigidBodyData) (velocity : Vec3) : RigidBodyData :=
  { b with angular_velocity := velocity, is_dirty := true }

/-- `RigidBodyData::set_force`. -/
def set_force (b : RigidBodyData) (force : Vec3) : RigidBodyData :=
  { b with force := force, is_dirty := true }

/-- `RigidBodyData::set_torque`. -/
def set_torque (b : RigidBodyData) (torque : Vec3) : RigidBodyData :=
  { b with torque := torque, is_dirty := true }

/-- `RigidBodyData::set_pre_solve_linear_velocity`. -/
def set_pre_solve_linear_velocity (b : RigidBodyData) (velocity : Vec3) : RigidBodyData :=
  { b with pre_solve_linear_velocity := velocity }

/-- `RigidBodyData::set_pre_solve_angular_velocity`. -/
def set_pre_solve_angular_velocity (b : RigidBodyData) (velocity : Vec3) : RigidBodyData :=
  { b with pre_solve_angular_velocity := velocity }

end RigidBodyData

/-- `engine/xpbd.rs`: the body of the `integrate_bodies` loop for one body
(the loop maps this over the slice).  Dynamic bodies integrate linear and
angular state and clear force/torque; every other body is skipped
(`continue`). -/
def integrate_body (fns : FloatFns) (gravity : Vec3) (delta_time : ℚ)
    (body : RigidBodyData) : RigidBodyData :=
  if ¬ body.is_dynamic then body
  else
    let body := body.set_previous_position body.position
    let weight := gravity * body.effective_mass
    let total_force := body.force + weight
    let body := body.set_linear_velocity
      (body.linear_velocity + (total_force * body.effective_inverse_mass : Vec3) * delta_time)
    let body := body.set_position (body.position + body.linear_velocity * delta_time)
    let body := body.set_previous_rotation body.rotation
    let i := body.inertia_tensor
    let inv_inertia_tensor := body.inv_inertia_tensor
    let omega := body.angular_velocity
    let torque := body.torque
    let i_omega := i * omega
    let gyro := omega.cross i_omega
    let angular_acceleration := inv_inertia_tensor * (torque - gyro)
    let body := body.set_angular_velocity
      (body.angular_velocity + delta_time * angular_acceleration)
    let dq := ((1 / 2 : ℚ) * delta_time * body.rotation : Quat) *
      Quat.from_xyz body.angular_velocity 0
    let body := body.set_rotation fns (body.rotation + dq)
    let body := body.set_torque Vec3.ZERO
    body.set_force Vec3.ZERO

/-- `engine/xpbd.rs`: `integrate_bodies` over the whole slice. -/
def integrate_bodies (fns : FloatFns) (gravity : Vec3) (delta_time : ℚ)
    (bodies : List RigidBodyData) : List RigidBodyData :=
  bodies.map (integrate_body fns gravity delta_time)

/-- `engine/xpbd.rs`: the body of the `recompute_velocities` loop for one
body.  Non-dynamic bodies get both velocities forced to zero; dynamic
bodies derive velocities from the pose delta over `dt`. -/
def recompute_velocities_body (dt : ℚ) (body : RigidBodyData) : RigidBodyData :=
  if ¬ body.is_dynamic then
    (body.set_linear_velocity Vec3.ZERO).set_angular_velocity Vec3.ZERO
  else
    let body := body.set_pre_solve_linear_velocity body.linear_velocity
    let body := body.set_linear_velocity ((body.position - body.previous_position) / dt)
    let body := body.set_pre_solve_angular_velocity body.angular_velocity
    body.set_angular_velocity
      (((body.rotation * body.previous_rotation.inverse : Quat).as_radians) / dt)

/-- `engine/xpbd.rs`: `recompute_velocities` over the whole slice. -/
def recompute_velocities (dt : ℚ) (bodies : List RigidBodyData) : List RigidBodyData :=
  bodies.map (recompute_velocities_body dt)

/-- `engine/constraints/penetration.rs`: `PenetrationConstraint`. -/
structure PenetrationConstraint where
  a : ℕ
  b : ℕ
  world_a : Vec3
  world_b : Vec3
  local_a : Vec3
  local_b : Vec3
  normal : Vec3
  penetration_depth : ℚ
  compliance : ℚ
  normal_lagrange : ℚ
  normal_force : Vec3
  tangential_lagrange : ℚ
  static_friction_force : Vec3
  tangent_lagrange : ℚ
deriving DecidableEq, Repr

/-- `engine/constraints/mod.rs`, `Constraint::compute_lagrange_update`:
the folded sum `Σ wᵢ·|gradientᵢ|²` (the fold pairs each inverse mass with
the gradient of the same index). -/
def lagrange_w_sum (gradients : List Vec3) (inverse_masses : List ℚ) : ℚ :=
  (inverse_masses.zip gradients).foldl
    (fun acc p => acc + p.1 * p.2.length_squared) 0

/-- `Constraint::compute_lagrange_update`.  Note the source guard is the
exact comparison `w_sum == f32::EPSILON`; only then does it return 0.
In `f32` the final division yields a non-finite value when
`w_sum + a_tilde = 0`; Lean's total `ℚ` division returns 0 there, and the
predicate `lagrange_update_division_hits_zero` below marks exactly those
inputs. -/
def compute_lagrange_update (lagrange c : ℚ) (gradients : List Vec3)
    (inverse_masses : List ℚ) (compliance dt : ℚ) : ℚ :=
  let w_sum := lagrange_w_sum gradients inverse_masses
  if w_sum = EPSILON then 0
  else
    let a_tilde := compliance / dt ^ 2
    (-c - a_tilde * lagrange) / (w_sum + a_tilde)

/-- Holds when `Constraint::compute_lagrange_update` reaches its final
division with a zero denominator, i.e. the `w_sum == f32::EPSILON` guard
does not fire and `w_sum + a_tilde = 0` — in `f32` the quotient is then
`±∞`/NaN rather than a finite number. -/
def lagrange_update_division_hits_zero (gradients : List Vec3)
    (inverse_masses : List ℚ) (compliance dt : ℚ) : Prop :=
  lagrange_w_sum gradients inverse_masses ≠ EPSILON ∧
    lagrange_w_sum gradients inverse_masses + compliance / dt ^ 2 = 0

instance (gradients : List Vec3) (inverse_masses : List ℚ) (compliance dt : ℚ) :
    Decidable (lagrange_update_division_hits_zero gradients inverse_masses compliance dt) :=
  inferInstanceAs (Decidable (_ ∧ _))

/-- `engine/constraints/position.rs`, `PositionConstraint::compute_generalized_inverse_mass`. -/
def compute_generalized_inverse_mass (body : RigidBodyData) (r n : Vec3) : ℚ :=
  let inv_inertia := body.effective_inverse_inertia
  let r_cross_n := r.cross n
  body.inv_mass + r_cross_n.dot (inv_inertia * r_cross_n)

/-- `PositionConstraint::apply_body_correction`. -/
def apply_body_correction (fns : FloatFns) (body : RigidBodyData) (p r : Vec3)
    (sign : ℚ) : RigidBodyData :=
  let body := body.set_position
    (body.position + ((sign * p : Vec3) * body.effective_inverse_mass : Vec3))
  let inv_inertia := body.effective_inverse_inertia
  let delta_angle := (sign * inv_inertia : Mat3) * r.cross p
  let dq := Quat.from_scaled_axis fns delta_angle
  body.set_rotation fns (dq * body.rotation)

/-- `PositionConstraint::apply_position_correction`: besides the source's
`Option` logging payload, the model returns the (possibly updated) pair of
bodies, standing for the two `&mut` references. -/
def apply_position_correction (fns : FloatFns) (body_a body_b : RigidBodyData)
    (delta_lagrange : ℚ) (direction ra rb : Vec3) :
    RigidBodyData × RigidBodyData × Option (Vec3 × Vec3 × Vec3 × Vec3 × Vec3) :=
  if |delta_lagrange| < EPSILON then (body_a, body_b, none)
  else
    let p := (delta_lagrange * direction : Vec3)
    let previous_position_a := body_a.position
    let previous_position_b := body_b.position
    let body_a := if body_a.is_dynamic then apply_body_correction fns body_a p ra 1 else body_a
    let body_b := if body_b.is_dynamic then apply_body_correction fns body_b p rb (-1) else body_b
    (body_a, body_b,
      some (previous_position_a, body_a.position, previous_position_b, body_b.position, p))

/-- `PenetrationConstraint::solve_contact`. -/
def solve_contact (fns : FloatFns) (c : PenetrationConstraint)
    (body_a body_b : RigidBodyData) (dt : ℚ) :
    PenetrationConstraint × RigidBodyData × RigidBodyData :=
  let penetraion := c.penetration_depth
  let normal := c.normal
  let compliance := c.compliance
  let lagrange := c.normal_lagrange
  let ra := body_a.rotation.rotate c.local_a
  let rb := body_b.rotation.rotate c.local_b
  if 0 ≤ penetraion then (c, body_a, body_b)
  else
    let wa := compute_generalized_inverse_mass body_a ra normal
    let wb := compute_generalized_inverse_mass body_b rb normal
    let gradients := [normal, -normal]
    let w := [wa, wb]
    let delta_lagrange := compute_lagrange_update lagrange penetraion gradients w compliance dt
    let c := { c with normal_lagrange := c.normal_lagrange + delta_lagrange }
    let c := { c with normal_force := ((c.normal_lagrange * normal : Vec3) / dt ^ 2 : Vec3) }
    let r := apply_position_correction fns body_a body_b delta_lagrange normal ra rb
    (c, r.1, r.2.1)

/-- `PenetrationConstraint::solve_friction`.  The static-friction stick
condition is the source's `sliding_len < static_coefficient * penetration`
with the *signed* `penetration_depth` (negative while penetrating). -/
def solve_friction (fns : FloatFns) (c : PenetrationConstraint)
    (body1 body2 : RigidBodyData) (dt : ℚ) :
    PenetrationConstraint × RigidBodyData × RigidBodyData :=
  let penetration := c.penetration_depth
  let normal := c.normal
  let compliance := c.compliance
  let lagrange := c.tangential_lagrange
  let r1 := c.world_a
  let r2 := c.world_b
  let p1 := body1.position + body1.rotation.rotate c.local_a
  let p2 := body2.position + body2.rotation.rotate c.local_b
  let prev_p1 := body1.previous_position + body1.previous_rotation.rotate c.local_a
  let prev_p2 := body2.previous_position + body2.previous_rotation.rotate c.local_b
  let delta_p := (p1 - prev_p1) - (p2 - prev_p2)
  let delta_p_tangent := delta_p - (delta_p.dot normal * normal : Vec3)
  let sliding_len := delta_p_tangent.length fns
  if sliding_len ≤ EPSILON then (c, body1, body2)
  else
    let tangent := (delta_p_tangent / sliding_len : Vec3)
    let w1 := compute_generalized_inverse_mass body1 r1 tangent
    let w2 := compute_generalized_inverse_mass body2 r2 tangent
    let gradients := [tangent, -tangent]
    let w := [w1, w2]
    let static_coefficient := body1.combine_static_friction body2
    if sliding_len < static_coefficient * penetration then
      let delta_lagrange := compute_lagrange_update lagrange sliding_len gradients w compliance dt
      let c := { c with tangent_lagrange := c.tangent_lagrange + delta_lagrange }
      let r := apply_position_correction fns body1 body2 delta_lagrange tangent r1 r2
      let c := { c with
        static_friction_force := ((c.tangent_lagrange * tangent : Vec3) / dt ^ 2 : Vec3) }
      (c, r.1, r.2.1)
    else (c, body1, body2)

/-- `utils/get_bodies.rs`: `binary_search_by_key(&key, |b| b.id)`.  On the
strictly-id-sorted slices this code is used with, Rust's binary search
returns exactly the index of the (unique) matching element, which is the
first index satisfying the key equality — modelled as first-match
search. -/
def binary_search_by_id (key : ℕ) : List RigidBodyData → Option ℕ
  | [] => none
  | b :: rest =>
    if b.id = key then some 0
    else (binary_search_by_id key rest).map (· + 1)

/-- `utils/get_bodies.rs`, `get_bodies_mut`: index computation.  `mid` is
the position of the max-id body; the min-id body is searched in the left
part of `split_at_mut(mid)`.  Returns `(index of min-id, mid)`; `none`
models the source's `assert!`/`expect` panics. -/
def get_bodies_idx (id_a id_b : ℕ) (bodies : List RigidBodyData) : Option (ℕ × ℕ) :=
  if id_a = id_b then none
  else
    let max_id := max id_a id_b
    let min_id := min id_a id_b
    match binary_search_by_id max_id bodies with
    | none => none
    | some mid =>
      match binary_search_by_id min_id (bodies.take mid) with
      | none => none
      | some i => some (i, mid)

/-- `utils/get_bodies.rs`, `get_bodies_mut`: the returned pair
`(left[i], right[0])` — the min-id body first, the max-id body second. -/
def get_bodies_mut (id_a id_b : ℕ) (bodies : List RigidBodyData) :
    Option (RigidBodyData × RigidBodyData) :=
  match get_bodies_idx id_a id_b bodies with
  | none => none
  | some (i, mid) =>
    match (bodies.take mid).get? i, (bodies.drop mid).head? with
    | some a, some b => some (a, b)
    | _, _ => none

/-- `Constraint::solve` for `PenetrationConstraint`: fetch the two bodies
through `get_bodies_mut`, run `solve_contact` then `solve_friction`, and
write the mutated bodies back at their positions. -/
def solve_penetration_constraint (fns : FloatFns) (c : PenetrationConstraint)
    (bodies : List RigidBodyData) (dt : ℚ) :
    PenetrationConstraint × List RigidBodyData :=
  match get_bodies_idx c.a c.b bodies with
  | none => (c, bodies)
  | some (i, mid) =>
    match (bodies.take mid).get? i, (bodies.drop mid).head? with
    | some body_a, some body_b =>
      let r := solve_contact fns c body_a body_b dt
      let r2 := solve_friction fns r.1 r.2.1 r.2.2 dt
      (r2.1, (bodies.set i r2.2.1).set mid r2.2.2)
    | _, _ => (c, bodies)

/-- `engine/xpbd.rs`, `solve_constraints`: one pass over all penetration
constraints (`iter_mut().for_each(solve)`), each solve threading the
accumulated Lagrange multipliers and the mutated body slice. -/
def solve_constraints (fns : FloatFns) :
    List PenetrationConstraint → List RigidBodyData → (dt : ℚ) →
    List PenetrationConstraint × List RigidBodyData
  | [], bodies, _ => ([], bodies)
  | c :: cs, bodies, dt =>
    let r := solve_penetration_constraint fns c bodies dt
    let rest := solve_constraints fns cs r.2 dt
    (r.1 :: rest.1, rest.2)

/-- `engine/mod.rs`: the `for _ in 0..world.position_iterations` loop
around `solve_constraints`. -/
def position_iterations_loop (fns : FloatFns) (n : ℕ)
    (cs : List PenetrationConstraint) (bodies : List RigidBodyData) (dt : ℚ) :
    List PenetrationConstraint × List RigidBodyData :=
  (fun acc => solve_constraints fns acc.1 acc.2 dt)^[n] (cs, bodies)

/-- `engine/xpbd.rs`: `compute_contact_vel`. -/
def compute_contact_vel (lin_vel ang_vel r : Vec3) : Vec3 :=
  lin_vel + ang_vel.cross r

/-- `engine/xpbd.rs`: `compute_delta_ang_vel`. -/
def compute_delta_ang_vel (inverse_inertia : Mat3) (r p : Vec3) : Vec3 :=
  inverse_inertia * r.cross p

/-- `engine/xpbd.rs`: `get_dynamic_friction`. -/
def get_dynamic_friction (fns : FloatFns) (tangent_vel : Vec3)
    (coefficient normal_lagrange sub_dt : ℚ) : Vec3 :=
  let tangent_vel_magnitude := tangent_vel.length fns
  if |tangent_vel_magnitude| ≤ EPSILON then Vec3.ZERO
  else
    let normal_force := normal_lagrange / sub_dt ^ 2
    let dir := if 1 / 1000000 < tangent_vel_magnitude
      then (tangent_vel / tangent_vel_magnitude : Vec3) else Vec3.ZERO
    ((-dir : Vec3) * min (sub_dt * coefficient * |normal_force|) tangent_vel_magnitude : Vec3)

/-- `engine/xpbd.rs`: `get_restitution` (the `world` argument of the source
is used only for debug logging and is dropped).  The coefficient is forced
to 0 whenever `|normal_vel| ≤ 2·|gravity|·sub_dt`. -/
def get_restitution (fns : FloatFns) (normal : Vec3)
    (normal_vel pre_solve_normal_vel coefficient : ℚ) (gravity : Vec3)
    (sub_dt : ℚ) : Vec3 :=
  let coefficient := if |normal_vel| ≤ 2 * gravity.length fns * sub_dt then 0 else coefficient
  (normal * (-normal_vel + min (-coefficient * pre_solve_normal_vel) 0) : Vec3)

/-- `engine/xpbd.rs`, `solve_velocities`: the loop body for one
penetration constraint (restitution + dynamic friction impulses). -/
def solve_velocity_constraint (fns : FloatFns) (gravity : Vec3)
    (c : PenetrationConstraint) (bodies : List RigidBodyData) (dt : ℚ) :
    List RigidBodyData :=
  match get_bodies_idx c.a c.b bodies with
  | none => bodies
  | some (i, mid) =>
    match (bodies.take mid).get? i, (bodies.drop mid).head? with
    | some body1, some body2 =>
      let normal := c.normal
      let pre_solve_contact_vel1 := compute_contact_vel
        body1.pre_solve_linear_velocity body1.pre_solve_angular_velocity c.world_a
      let pre_solve_contact_vel2 := compute_contact_vel
        body2.pre_solve_linear_velocity body2.pre_solve_angular_velocity c.world_b
      let pre_solve_relative_vel := pre_solve_contact_vel1 - pre_solve_contact_vel2
      let pre_solve_normal_vel := normal.dot pre_solve_relative_vel
      let contact_vel1 := compute_contact_vel body1.linear_velocity body1.angular_velocity c.world_a
      let contact_vel2 := compute_contact_vel body2.linear_velocity body2.angular_velocity c.world_b
      let relative_vel := contact_vel1 - contact_vel2
      let normal_vel := normal.dot relative_vel
      let tangent_vel := relative_vel - (normal * normal_vel : Vec3)
      let inv_mass1 := body1.effective_inverse_mass
      let inv_mass2 := body2.effective_inverse_mass
      let inv_inertia1 := body1.effective_inverse_inertia
      let inv_inertia2 := body2.effective_inverse_inertia
      let friction_coefficient := body1.combine_dynamic_friction body2
      let restitution_coefficient := body1.combine_restitution body2
      let friction_impulse := get_dynamic_friction fns tangent_vel
        friction_coefficient c.normal_lagrange dt
      let restitution_impulse := get_restitution fns normal normal_vel
        pre_solve_normal_vel restitution_coefficient gravity dt
      let delta_v := friction_impulse + restitution_impulse
      let delta_v_length := delta_v.length fns
      if delta_v_length ≤ EPSILON then bodies
      else
        let delta_v_dir := (delta_v / delta_v_length : Vec3)
        let w1 := compute_generalized_inverse_mass body1 c.world_a delta_v_dir
        let w2 := compute_generalized_inverse_mass body2 c.world_b delta_v_dir
        let p := (delta_v / (w1 + w2) : Vec3)
        let body1 := if body1.is_dynamic then
            (body1.set_linear_velocity (body1.linear_velocity + (p * inv_mass1 : Vec3))).set_angular_velocity
              (body1.angular_velocity + compute_delta_ang_vel inv_inertia1 c.world_a p)
          else body1
        let body2 := if body2.is_dynamic then
            (body2.set_linear_velocity (body2.linear_velocity - (p * inv_mass2 : Vec3))).set_angular_velocity
              (body2.angular_velocity - compute_delta_ang_vel inv_inertia2 c.world_b p)
          else body2
        (bodies.set i body1).set mid body2
    | _, _ => bodies

/-- `engine/xpbd.rs`: `solve_velocities` over all constraints. -/
def solve_velocities (fns : FloatFns) (gravity : Vec3)
    (cs : List PenetrationConstraint) (bodies : List RigidBodyData) (dt : ℚ) :
    List RigidBodyData :=
  cs.foldl (fun bs c => solve_velocity_constraint fns gravity c bs dt) bodies

/-- `engine/mod.rs`: `sync_kinematic_bodies`.  The override map is the
`HashMap` built from the caller's iterator; only Kinematic bodies with a
matching entry get their rotation then position overwritten. -/
def sync_kinematic_bodies (fns : FloatFns) (overrides : ℕ → Option (Vec3 × Quat))
    (entities : List RigidBodyData) : List RigidBodyData :=
  entities.map
    (fun entity =>
      if ¬ entity.is_kinematic then entity
      else
        match overrides entity.id with
        | none => entity
        | some pr => (entity.set_rotation fns pr.2).set_position pr.1)

/-- `engine/mod.rs`, `step_world`: one substep — narrow phase constraints
(the geometric contact test lives in the external `parry3d` crate, so the
constraint generation is a parameter `narrow`), integrate, the position
iteration loop, recompute velocities, solve velocities. -/
def substep (fns : FloatFns) (narrow : List RigidBodyData → List PenetrationConstraint)
    (gravity : Vec3) (position_iterations : ℕ) (dt : ℚ)
    (bodies : List RigidBodyData) : List RigidBodyData :=
  let penetration_constraints := narrow bodies
  let bodies := integrate_bodies fns gravity dt bodies
  let r := position_iterations_loop fns position_iterations penetration_constraints bodies dt
  let bodies := recompute_velocities dt r.2
  solve_velocities fns gravity r.1 bodies dt

/-- `engine/mod.rs`, `step_world`: the body pipeline of a whole step —
kinematic sync, then `sub_step` substeps.  (Trigger and raycast narrow
phases do not touch bodies.) -/
def step_world_bodies (fns : FloatFns)
    (narrow : List RigidBodyData → List PenetrationConstraint) (gravity : Vec3)
    (sub_step position_iterations : ℕ) (dt : ℚ)
    (overrides : ℕ → Option (Vec3 × Quat))
    (bodies : List RigidBodyData) : List RigidBodyData :=
  (substep fns narrow gravity position_iterations dt)^[sub_step]
    (sync_kinematic_bodies fns overrides bodies)

/-- `engine/mod.rs`, `step_world` writeback loop: `for entity in entities
{ entity.update(ctx) }` — the ids of the rows handed to the store, one per
entity, unconditionally. -/
def update_bodies_ids (entities : List RigidBodyData) : List ℕ :=
  entities.map (fun e => e.id)

/-- `tables/raycast.rs`: `RayCastHit`.  Its `PartialEq`/`Hash` compare the
`f32` fields by their canonical bit patterns (`to_bits`), which the `ℚ`
embedding models as plain equality. -/
structure RayCastHit where
  distance : ℚ
  position : Vec3
  normal : Vec3
  rigid_body_id : ℕ
deriving DecidableEq, Repr

/-- The three hit vectors of a `tables/raycast.rs` `RayCast` row (the ray
geometry itself only feeds the external `parry3d` cast and the broad
phase, which are parameters of the model). -/
structure RayCastState where
  id : ℕ
  hits : List RayCastHit
  added_hits : List RayCastHit
  removed_hits : List RayCastHit
deriving DecidableEq, Repr

/-- `std::collections::HashSet::insert`, modelled on a duplicate-free list
kept in iteration order: inserting an already-present element is a no-op,
a new element is appended. -/
def hash_set_insert {α : Type} [DecidableEq α] (x : α) (s : List α) : List α :=
  if x ∈ s then s else s ++ [x]

/-- `engine/collision_detection.rs`, `run_broad_phase_raycast_pairs`
(lines 256–283) + the `narrow_phase_raycast` loop body (lines 186–231)
for one raycast.  `run_broad_phase_raycast_pairs` inserts an entry into
`raycasts_pairs` only when the candidate set is non-empty
(`if !entities.is_empty()`), and `narrow_phase_raycast` iterates only the
entries of that map — so a ray with an empty candidate set is not
processed at all: its stored hit vectors stay untouched and no
`raycast.update(ctx)` is handed to the store.  The per-shape
`cast_ray_and_get_normal` (external `parry3d`) is the parameter
`cast_ray`; `candidates` carries the broad-phase candidate set in the
environment's `HashSet` iteration order.  The returned `Bool` records
whether an update was handed to the store. -/
def narrow_phase_raycast_one (cast_ray : ℕ → Option RayCastHit)
    (candidates : List ℕ) (raycast : RayCastState) : RayCastState × Bool :=
  if candidates.isEmpty then (raycast, false)
  else
    let hits := candidates.foldl
      (fun s c =>
        match cast_ray c with
        | some h => hash_set_insert h s
        | none => s) []
    let previous_hits := raycast.hits.foldl (fun s h => hash_set_insert h s) []
    ({ raycast with
        added_hits := hits.filter (fun h => decide (¬ h ∈ previous_hits)),
        removed_hits := previous_hits.filter (fun h => decide (¬ h ∈ hits)),
        hits := hits },
      true)

/-- The same `narrow_phase_raycast` loop body, with the seed-dependent
`HashSet` iteration order made explicit.  In the source, *both* per-ray
sets are `std::collections::HashSet`s enumerated in an order that depends
on the process's random SipHash seed: the new `hits` set is iterated when
building `added_hits` (`hits.difference(&previous_hits)`, line 217) and
the stored vector (`hits.into_iter().collect()`, line 219), and the
`previous_hits` set is iterated when building `removed_hits`
(`previous_hits.difference(&hits)`, line 218).  The parameter
`hash_order` maps a set — given as its duplicate-free insertion-order
list — to the order in which this run's `HashSet` enumerates it; it
abstracts the hash seed and is applied to both sets.
`narrow_phase_raycast_one` is the special case `hash_order = fun l => l`
(enumeration in insertion order). -/
def narrow_phase_raycast_one_seeded
    (hash_order : List RayCastHit → List RayCastHit)
    (cast_ray : ℕ → Option RayCastHit)
    (candidates : List ℕ) (raycast : RayCastState) : RayCastState × Bool :=
  if candidates.isEmpty then (raycast, false)
  else
    let hits := hash_order (candidates.foldl
      (fun s c =>
        match cast_ray c with
        | some h => hash_set_insert h s
        | none => s) [])
    let previous_hits := hash_order (raycast.hits.foldl (fun s h => hash_set_insert h s) [])
    ({ raycast with
        added_hits := hits.filter (fun h => decide (¬ h ∈ previous_hits)),
        removed_hits := previous_hits.filter (fun h => decide (¬ h ∈ hits)),
        hits := hits },
      true)

/-- A concrete `FloatFns` for evaluating the model on concrete inputs.
Its `sqrt` is a finite table that agrees with the exact (and the `f32`)
square root on every value it is actually applied to in the concrete
evaluations below — all of them squares of dyadic rationals, on which
`f32` square root is exact; `sin`/`cos` are never reached there. -/
def fns0 : FloatFns :=
  ⟨fun q =>
    if q = 0 then 0
    else if q = 1 then 1
    else if q = 1 / 4 then 1 / 2
    else if q = 25 / 16 then 5 / 4
    else 0,
   fun _ => 0, fun _ => 1⟩

/-- The tangential slide magnitude `sliding_len` computed by
`PenetrationConstraint::solve_friction` (penetration.rs lines 113–124),
exposed as a named observable. -/
def friction_sliding_len (fns : FloatFns) (c : PenetrationConstraint)
    (body1 body2 : RigidBodyData) : ℚ :=
  let normal := c.normal
  let p1 := body1.position + body1.rotation.rotate c.local_a
  let p2 := body2.position + body2.rotation.rotate c.local_b
  let prev_p1 := body1.previous_position + body1.previous_rotation.rotate c.local_a
  let prev_p2 := body2.previous_position + body2.previous_rotation.rotate c.local_b
  let delta_p := (p1 - prev_p1) - (p2 - prev_p2)
  let delta_p_tangent := delta_p - (delta_p.dot normal * normal : Vec3)
  delta_p_tangent.length fns

/-- A concrete Dynamic body: unit mass, identity inertia, rotation
`(1,0,0,0)` (a half-turn about X), angular velocity `(0, 3/2, 0)`. -/
def cex3_body : RigidBodyData :=
  { id := 1, body_type := RigidBodyType.Dynamic,
    position := Vec3.ZERO, rotation := ⟨1, 0, 0, 0⟩,
    linear_velocity := Vec3.ZERO, angular_velocity := ⟨0, 3 / 2, 0⟩,
    force := Vec3.ZERO, torque := Vec3.ZERO,
    mass := 1, inv_mass := 1,
    friction_static_coefficient := 0, friction_dynamic_coefficient := 0,
    restitution_coefficient := 0,
    inertia_tensor := Mat3.IDENTITY, inv_inertia_tensor := Mat3.IDENTITY,
    pre_solve_linear_velocity := Vec3.ZERO, pre_solve_angular_velocity := Vec3.ZERO,
    previous_position := Vec3.ZERO, previous_rotation := Quat.IDENTITY,
    is_dirty := false }

/-- A concrete Dynamic body whose contact point slid by `(1/2, 0, 0)`
during the substep (position moved from the origin to `(1/2,0,0)`). -/
def cex2_b1 : RigidBodyData :=
  { id := 1, body_type := RigidBodyType.Dynamic,
    position := ⟨1 / 2, 0, 0⟩, rotation := Quat.IDENTITY,
    linear_velocity := Vec3.ZERO, angular_velocity := Vec3.ZERO,
    force := Vec3.ZERO, torque := Vec3.ZERO,
    mass := 1, inv_mass := 1,
    friction_static_coefficient := 1, friction_dynamic_coefficient := 0,
    restitution_coefficient := 0,
    inertia_tensor := Mat3.IDENTITY, inv_inertia_tensor := Mat3.IDENTITY,
    pre_solve_linear_velocity := Vec3.ZERO, pre_solve_angular_velocity := Vec3.ZERO,
    previous_position := Vec3.ZERO, previous_rotation := Quat.IDENTITY,
    is_dirty := false }

/-- A concrete Static body at rest at the origin. -/
def cex2_b2 : RigidBodyData :=
  { cex2_b1 with
    id := 2, body_type := RigidBodyType.Static, position := Vec3.ZERO, inv_mass := 0 }

/-- A narrow phase producing no contacts (e.g. a snapshot whose bodies
never overlap). -/
def narrow0 : List RigidBodyData → List PenetrationConstraint := fun _ => []

/-- An empty kinematic-override map. -/
def overrides_none : ℕ → Option (Vec3 × Quat) := fun _ => none

/-- A concrete Static body (id 7) already at rest: the step leaves every
stored field unchanged. -/
def cex6_b : RigidBodyData :=
  { id := 7, body_type := RigidBodyType.Static,
    position := ⟨2, 0, 0⟩, rotation := Quat.IDENTITY,
    linear_velocity := Vec3.ZERO, angular_velocity := Vec3.ZERO,
    force := Vec3.ZERO, torque := Vec3.ZERO,
    mass := 0, inv_mass := 0,
    friction_static_coefficient := 0, friction_dynamic_coefficient := 0,
    restitution_coefficient := 0,
    inertia_tensor := Mat3.ZERO, inv_inertia_tensor := Mat3.ZERO,
    pre_solve_linear_velocity := Vec3.ZERO, pre_solve_angular_velocity := Vec3.ZERO,
    previous_position := ⟨2, 0, 0⟩, previous_rotation := Quat.IDENTITY,
    is_dirty := false }

/-- A concrete Kinematic body (id 3). -/
def cex9_k : RigidBodyData :=
  { cex6_b with id := 3, body_type := RigidBodyType.Kinematic, position := ⟨1, 2, 3⟩ }

/-- A kinematic-override map supplying pose `((3,4,5), identity)` for body
id 3. -/
def cex9_overrides : ℕ → Option (Vec3 × Quat) :=
  fun n => if n = 3 then some (⟨3, 4, 5⟩, ⟨0, 0, 0, 1⟩) else none

/-- A rigid penetration constraint between `cex2_b1` and `cex2_b2` with
contact normal `+Z` and signed penetration distance `−1` (depth 1), as
produced by the narrow phase (compliance 0, zero Lagrange multipliers). -/
def cex2_c : PenetrationConstraint :=
  { a := 1, b := 2, world_a := Vec3.ZERO, world_b := Vec3.ZERO,
    local_a := Vec3.ZERO, local_b := Vec3.ZERO, normal := ⟨0, 0, 1⟩,
    penetration_depth := -1, compliance := 0, normal_lagrange := 0,
    normal_force := Vec3.ZERO, tangential_lagrange := 0,
    static_friction_force := Vec3.ZERO, tangent_lagrange := 0 }

/-- A concrete stored hit (body 5 at distance 1). -/
def cex5_hit : RayCastHit := ⟨1, Vec3.ZERO, Vec3.ZERO, 5⟩

/-- A raycast whose snapshot already stores one hit and empty diffs. -/
def cex5_rc : RayCastState := ⟨11, [cex5_hit], [], []⟩

/-- A per-body cast in which every candidate body is hit at distance equal
to its index. -/
def cex4_cast : ℕ → Option RayCastHit := fun c => some ⟨(c : ℚ), Vec3.ZERO, Vec3.ZERO, c⟩

/-- A raycast with no stored hits. -/
def cex4_rc : RayCastState := ⟨21, [], [], []⟩

/-- A raycast whose snapshot stores two distinct hits (bodies 1 and 2). -/
def cex4_rc2 : RayCastState :=
  ⟨22, [⟨1, Vec3.ZERO, Vec3.ZERO, 1⟩, ⟨2, Vec3.ZERO, Vec3.ZERO, 2⟩], [], []⟩

end SpacetimePhysics

namespace SpacetimePhysics

/-- Unfolding lemma for the instance-backed `Vec3` addition. -/
@[simp] theorem Vec3_add_def (v w : Vec3) :
    v + w = ⟨v.x + w.x, v.y + w.y, v.z + w.z⟩ := rfl

/-- Unfolding lemma for `Vec3` subtraction. -/
@[simp] theorem Vec3_sub_def (v w : Vec3) :
    v - w = ⟨v.x - w.x, v.y - w.y, v.z - w.z⟩ := rfl

/-- Unfolding lemma for `Vec3` negation. -/
@[simp] theorem Vec3_neg_def (v : Vec3) : -v = ⟨-v.x, -v.y, -v.z⟩ := rfl

/-- Unfolding lemma for componentwise `Vec3` multiplication. -/
@[simp] theorem Vec3_mul_def (v w : Vec3) :
    v * w = ⟨v.x * w.x, v.y * w.y, v.z * w.z⟩ := rfl

/-- Unfolding lemma for `Vec3 * f32`. -/
@[simp] theorem Vec3_mulS_def (v : Vec3) (s : ℚ) :
    (v * s : Vec3) = ⟨v.x * s, v.y * s, v.z * s⟩ := rfl

/-- Unfolding lemma for `f32 * Vec3`. -/
@[simp] theorem Vec3_smul_def (s : ℚ) (v : Vec3) :
    (s * v : Vec3) = ⟨s * v.x, s * v.y, s * v.z⟩ := rfl

/-- Unfolding lemma for `Vec3 / f32`. -/
@[simp] theorem Vec3_divS_def (v : Vec3) (s : ℚ) :
    (v / s : Vec3) = ⟨v.x / s, v.y / s, v.z / s⟩ := rfl

/-- Unfolding lemma for `Mat3 * Vec3`. -/
@[simp] theorem Mat3_mulVec_def (m : Mat3) (v : Vec3) :
    (m * v : Vec3) =
      ⟨m.m11 * v.x + m.m12 * v.y + m.m13 * v.z,
       m.m21 * v.x + m.m22 * v.y + m.m23 * v.z,
       m.m31 * v.x + m.m32 * v.y + m.m33 * v.z⟩ := rfl

/-- Unfolding lemma for `f32 * Mat3`. -/
@[simp] theorem Mat3_smul_def (s : ℚ) (m : Mat3) :
    (s * m : Mat3) =
      ⟨s * m.m11, s * m.m12, s * m.m13,
       s * m.m21, s * m.m22, s * m.m23,
       s * m.m31, s * m.m32, s * m.m33⟩ := rfl

/-- Unfolding lemma for `Mat3 * Mat3`. -/
@[simp] theorem Mat3_mul_def (a b : Mat3) :
    a * b =
      ⟨a.m11 * b.m11 + a.m12 * b.m21 + a.m13 * b.m31,
       a.m11 * b.m12 + a.m12 * b.m22 + a.m13 * b.m32,
       a.m11 * b.m13 + a.m12 * b.m23 + a.m13 * b.m33,
       a.m21 * b.m11 + a.m22 * b.m21 + a.m23 * b.m31,
       a.m21 * b.m12 + a.m22 * b.m22 + a.m23 * b.m32,
       a.m21 * b.m13 + a.m22 * b.m23 + a.m23 * b.m33,
       a.m31 * b.m11 + a.m32 * b.m21 + a.m33 * b.m31,
       a.m31 * b.m12 + a.m32 * b.m22 + a.m33 * b.m32,
       a.m31 * b.m13 + a.m32 * b.m23 + a.m33 * b.m33⟩ := rfl

/-- Unfolding lemma for the Hamilton product. -/
@[simp] theorem Quat_mul_def (q o : Quat) :
    q * o =
      ⟨q.w * o.x + q.x * o.w + q.y * o.z - q.z * o.y,
       q.w * o.y - q.x * o.z + q.y * o.w + q.z * o.x,
       q.w * o.z + q.x * o.y - q.y * o.x + q.z * o.w,
       q.w * o.w - q.x * o.x - q.y * o.y - q.z * o.z⟩ := rfl

/-- Unfolding lemma for `f32 * Quat`. -/
@[simp] theorem Quat_smul_def (s : ℚ) (q : Quat) :
    (s * q : Quat) = ⟨s * q.x, s * q.y, s * q.z, s * q.w⟩ := rfl

/-- Unfolding lemma for `Quat` addition. -/
@[simp] theorem Quat_add_def (q o : Quat) :
    q + o = ⟨q.x + o.x, q.y + o.y, q.z + o.z, q.w + o.w⟩ := rfl

/-- `(l.drop n).head?` is the `n`-th element. -/
theorem list_head?_drop {α : Type} (l : List α) (n : ℕ) :
    (l.drop n).head? = l.get? n := by
  induction l generalizing n with
  | nil => simp
  | cons a t ih =>
    cases n with
    | zero => rfl
    | succ n => simpa using ih n

/-- `take` preserves the elements strictly below the cut. -/
theorem list_get?_take_lt {α : Type} (l : List α) (n i : ℕ) (h : i < n) :
    (l.take n).get? i = l.get? i := by
  induction l generalizing n i with
  | nil => simp
  | cons a t ih =>
    cases n with
    | zero => omega
    | succ n =>
      cases i with
      | zero => rfl
      | succ i => simpa using ih n i (by omega)

/-- Every member sits at some index. -/
theorem list_mem_get? {α : Type} {l : List α} {a : α} (h : a ∈ l) :
    ∃ n, l.get? n = some a := by
  induction l with
  | nil => simp at h
  | cons x t ih =>
    rcases List.mem_cons.mp h with rfl | hmem
    · exact ⟨0, rfl⟩
    · obtain ⟨n, hn⟩ := ih hmem
      exact ⟨n + 1, by simpa using hn⟩

/-- On a strictly-id-sorted list, earlier indices carry smaller ids. -/
theorem pairwise_id_lt_get? (l : List RigidBodyData)
    (hs : l.Pairwise (fun x y => x.id < y.id)) (i j : ℕ) (a b : RigidBodyData)
    (hij : i < j) (hi : l.get? i = some a) (hj : l.get? j = some b) :
    a.id < b.id := by
  induction l generalizing i j with
  | nil => simp at hi
  | cons x t ih =>
    rcases List.pairwise_cons.mp hs with ⟨hx, ht⟩
    cases i with
    | zero =>
      cases j with
      | zero => omega
      | succ j =>
        cases hi
        exact hx b (List.get?_mem (by simpa using hj))
    | succ i =>
      cases j with
      | zero => omega
      | succ j => exact ih ht i j (by omega) (by simpa using hi) (by simpa using hj)

/-- A list containing an element of id `key` yields a successful search. -/
theorem binary_search_by_id_mem (key : ℕ) (l : List RigidBodyData)
    (h : ∃ x ∈ l, x.id = key) : ∃ j, binary_search_by_id key l = some j := by
  induction l with
  | nil => simp at h
  | cons b rest ih =>
    by_cases hb : b.id = key
    · exact ⟨0, by simp [binary_search_by_id, hb]⟩
    · obtain ⟨x, hx, hxk⟩ := h
      rcases List.mem_cons.mp hx with rfl | hx2
      · exact absurd hxk hb
      · obtain ⟨j, hj⟩ := ih ⟨x, hx2, hxk⟩
        exact ⟨j + 1, by simp [binary_search_by_id, hb, hj]⟩

/-- A successful search returns an index holding an element of id `key`. -/
theorem binary_search_by_id_get (key : ℕ) (l : List RigidBodyData) (j : ℕ)
    (h : binary_search_by_id key l = some j) :
    ∃ x, l.get? j = some x ∧ x.id = key := by
  induction l generalizing j with
  | nil => simp [binary_search_by_id] at h
  | cons b rest ih =>
    by_cases hb : b.id = key
    · simp [binary_search_by_id, hb] at h
      exact ⟨b, by simp [← h], hb⟩
    · simp [binary_search_by_id, hb] at h
      obtain ⟨j2, hj2, rfl⟩ := h
      obtain ⟨x, hx, hxk⟩ := ih j2 hj2
      exact ⟨x, by simpa using hx, hxk⟩

/-- C10: on a slice strictly sorted by id that contains both distinct ids,
`get_bodies_mut(id_a, id_b, bodies)` returns the body with the smaller id
first and the body with the larger id second — ordered by id, not by
argument order. -/
theorem c10_get_bodies_mut_ordered (id_a id_b : ℕ) (bodies : List RigidBodyData)
    (hsorted : bodies.Pairwise (fun x y => x.id < y.id))
    (hne : id_a ≠ id_b)
    (ha : ∃ x ∈ bodies, x.id = id_a) (hb : ∃ x ∈ bodies, x.id = id_b) :
    ∃ p, get_bodies_mut id_a id_b bodies = some p ∧
      p.1.id = min id_a id_b ∧ p.2.id = max id_a id_b := by
  have hmax : ∃ x ∈ bodies, x.id = max id_a id_b := by
    rcases max_choice id_a id_b with hm | hm
    · rw [hm]; exact ha
    · rw [hm]; exact hb
  have hmin : ∃ x ∈ bodies, x.id = min id_a id_b := by
    rcases min_choice id_a id_b with hm | hm
    · rw [hm]; exact ha
    · rw [hm]; exact hb
  have hlt : min id_a id_b < max id_a id_b := min_lt_max.mpr hne
  obtain ⟨mid, hmid⟩ := binary_search_by_id_mem _ bodies hmax
  obtain ⟨xmax, hxmax, hxmaxid⟩ := binary_search_by_id_get _ bodies mid hmid
  obtain ⟨xmin, hxminmem, hxminid⟩ := hmin
  obtain ⟨k, hk⟩ := list_mem_get? hxminmem
  have hkmid : k < mid := by
    rcases Nat.lt_trichotomy k mid with h | h | h
    · exact h
    · subst h
      rw [hk] at hxmax
      cases hxmax
      omega
    · have := pairwise_id_lt_get? bodies hsorted mid k xmax xmin h hxmax hk
      omega
  have hmintake : ∃ x ∈ bodies.take mid, x.id = min id_a id_b := by
    have htk : (bodies.take mid).get? k = some xmin := by
      rw [list_get?_take_lt bodies mid k hkmid]; exact hk
    exact ⟨xmin, List.get?_mem htk, hxminid⟩
  obtain ⟨i, hi⟩ := binary_search_by_id_mem _ (bodies.take mid) hmintake
  obtain ⟨a, hai, haid⟩ := binary_search_by_id_get _ (bodies.take mid) i hi
  refine ⟨(a, xmax), ?_, haid, hxmaxid⟩
  rw [get_bodies_mut, get_bodies_idx]
  simp only [if_neg hne, hmid, hi, hai, list_head?_drop, hxmax]

/-- Witness for C10: ids passed in reversed order (2, 1) come back
ordered by id. -/
theorem c10_witness :
    ∃ p, get_bodies_mut 2 1 [cex2_b1, cex2_b2] = some p ∧
      p.1.id = min 2 1 ∧ p.2.id = max 2 1 :=
  c10_get_bodies_mut_ordered 2 1 [cex2_b1, cex2_b2]
    (by simp [cex2_b1, cex2_b2])
    (by decide)
    ⟨cex2_b2, by simp, rfl⟩
    ⟨cex2_b1, by simp, rfl⟩

/-- Setting one index leaves the others unchanged. -/
theorem list_get?_set_ne {α : Type} (l : List α) (n m : ℕ) (a : α) (h : n ≠ m) :
    (l.set n a).get? m = l.get? m := by
  induction l generalizing n m with
  | nil => simp
  | cons x t ih =>
    cases n with
    | zero =>
      cases m with
      | zero => omega
      | succ m => rfl
    | succ n =>
      cases m with
      | zero => rfl
      | succ m => simpa using ih n m (by omega)

/-- Setting an in-bounds index stores the value. -/
theorem list_get?_set_self {α : Type} (l : List α) (n : ℕ) (a x : α)
    (h : l.get? n = some x) : (l.set n a).get? n = some a := by
  induction l generalizing n with
  | nil => simp at h
  | cons y t ih =>
    cases n with
    | zero => rfl
    | succ n => simpa using ih n (by simpa using h)

/-- Mapping over a `set` whose new element maps equally. -/
theorem list_map_set_congr {α β : Type} (l : List α) (n : ℕ) (a : α) (f : α → β)
    (h : ∀ x, l.get? n = some x → f a = f x) : (l.set n a).map f = l.map f := by
  induction l generalizing n with
  | nil => rfl
  | cons y t ih =>
    cases n with
    | zero => simp [h y rfl]
    | succ n =>
      have := ih n (fun x hx => h x (by simpa using hx))
      simpa using this

/-- The two-index write-back pattern of a pair solve keeps a body whose
written values coincide with it. -/
theorem set_pair_get?_preserve (bodies : List RigidBodyData) (j mid i : ℕ)
    (v1 v2 b : RigidBodyData) (hi : bodies.get? i = some b) (hjm : j ≠ mid)
    (h1 : i = j → v1 = b) (h2 : i = mid → v2 = b) :
    ((bodies.set j v1).set mid v2).get? i = some b := by
  by_cases him : i = mid
  · subst him
    have hx : (bodies.set j v1).get? i = some b := by
      rw [list_get?_set_ne _ _ _ _ hjm]; exact hi
    rw [list_get?_set_self _ _ _ _ hx, h2 rfl]
  · rw [list_get?_set_ne _ _ _ _ (Ne.symm him)]
    by_cases hij : i = j
    · subst hij
      rw [list_get?_set_self _ _ _ _ hi, h1 rfl]
    · rw [list_get?_set_ne _ _ _ _ (Ne.symm hij)]
      exact hi

/-- A Kinematic body is not Dynamic. -/
theorem kinematic_not_dynamic (b : RigidBodyData) (h : b.is_kinematic = true) :
    b.is_dynamic = false := by
  have hb : b.body_type = RigidBodyType.Kinematic := by
    simpa [RigidBodyData.is_kinematic] using h
  simp [RigidBodyData.is_dynamic, hb]

/-- A non-Dynamic first body passes through `apply_position_correction`
completely unchanged. -/
theorem apply_position_correction_nondyn_fst (fns : FloatFns) (a b : RigidBodyData)
    (dl : ℚ) (dir ra rb : Vec3) (h : a.is_dynamic = false) :
    (apply_position_correction fns a b dl dir ra rb).1 = a := by
  rw [apply_position_correction]
  split
  · rfl
  · simp [h]

/-- A non-Dynamic second body passes through `apply_position_correction`
completely unchanged. -/
theorem apply_position_correction_nondyn_snd (fns : FloatFns) (a b : RigidBodyData)
    (dl : ℚ) (dir ra rb : Vec3) (h : b.is_dynamic = false) :
    (apply_position_correction fns a b dl dir ra rb).2.1 = b := by
  rw [apply_position_correction]
  split
  · rfl
  · simp [h]

/-- `apply_position_correction` never changes the first body's id or
type. -/
theorem apply_position_correction_fst_id_type (fns : FloatFns) (a b : RigidBodyData)
    (dl : ℚ) (dir ra rb : Vec3) :
    (apply_position_correction fns a b dl dir ra rb).1.id = a.id ∧
    (apply_position_correction fns a b dl dir ra rb).1.body_type = a.body_type := by
  rw [apply_position_correction]
  split
  · exact ⟨rfl, rfl⟩
  · dsimp only
    split
    · exact ⟨rfl, rfl⟩
    · exact ⟨rfl, rfl⟩

/-- `apply_position_correction` never changes the second body's id or
type. -/
theorem apply_position_correction_snd_id_type (fns : FloatFns) (a b : RigidBodyData)
    (dl : ℚ) (dir ra rb : Vec3) :
    (apply_position_correction fns a b dl dir ra rb).2.1.id = b.id ∧
    (apply_position_correction fns a b dl dir ra rb).2.1.body_type = b.body_type := by
  rw [apply_position_correction]
  split
  · exact ⟨rfl, rfl⟩
  · dsimp only
    split
    · exact ⟨rfl, rfl⟩
    · exact ⟨rfl, rfl⟩

/-- A non-Dynamic first body passes through `solve_contact` unchanged. -/
theorem solve_contact_nondyn_fst (fns : FloatFns) (c : PenetrationConstraint)
    (a b : RigidBodyData) (dt : ℚ) (h : a.is_dynamic = false) :
    (solve_contact fns c a b dt).2.1 = a := by
  rw [solve_contact]
  split
  · rfl
  · dsimp only
    rw [apply_position_correction_nondyn_fst _ _ _ _ _ _ _ h]

/-- A non-Dynamic second body passes through `solve_contact` unchanged. -/
theorem solve_contact_nondyn_snd (fns : FloatFns) (c : PenetrationConstraint)
    (a b : RigidBodyData) (dt : ℚ) (h : b.is_dynamic = false) :
    (solve_contact fns c a b dt).2.2 = b := by
  rw [solve_contact]
  split
  · rfl
  · dsimp only
    rw [apply_position_correction_nondyn_snd _ _ _ _ _ _ _ h]

/-- `solve_contact` never changes the first body's id or type. -/
theorem solve_contact_fst_id_type (fns : FloatFns) (c : PenetrationConstraint)
    (a b : RigidBodyData) (dt : ℚ) :
    (solve_contact fns c a b dt).2.1.id = a.id ∧
    (solve_contact fns c a b dt).2.1.body_type = a.body_type := by
  rw [solve_contact]
  split
  · exact ⟨rfl, rfl⟩
  · dsimp only
    exact apply_position_correction_fst_id_type _ _ _ _ _ _ _

/-- `solve_contact` never changes the second body's id or type. -/
theorem solve_contact_snd_id_type (fns : FloatFns) (c : PenetrationConstraint)
    (a b : RigidBodyData) (dt : ℚ) :
    (solve_contact fns c a b dt).2.2.id = b.id ∧
    (solve_contact fns c a b dt).2.2.body_type = b.body_type := by
  rw [solve_contact]
  split
  · exact ⟨rfl, rfl⟩
  · dsimp only
    exact apply_position_correction_snd_id_type _ _ _ _ _ _ _

/-- A non-Dynamic first body passes through `solve_friction` unchanged. -/
theorem solve_friction_nondyn_fst (fns : FloatFns) (c : PenetrationConstraint)
    (a b : RigidBodyData) (dt : ℚ) (h : a.is_dynamic = false) :
    (solve_friction fns c a b dt).2.1 = a := by
  rw [solve_friction]
  split
  · rfl
  · dsimp only
    split
    · dsimp only
      rw [apply_position_correction_nondyn_fst _ _ _ _ _ _ _ h]
    · rfl

/-- A non-Dynamic second body passes through `solve_friction` unchanged. -/
theorem solve_friction_nondyn_snd (fns : FloatFns) (c : PenetrationConstraint)
    (a b : RigidBodyData) (dt : ℚ) (h : b.is_dynamic = false) :
    (solve_friction fns c a b dt).2.2 = b := by
  rw [solve_friction]
  split
  · rfl
  · dsimp only
    split
    · dsimp only
      rw [apply_position_correction_nondyn_snd _ _ _ _ _ _ _ h]
    · rfl

/-- `solve_friction` never changes the first body's id or type. -/
theorem solve_friction_fst_id_type (fns : FloatFns) (c : PenetrationConstraint)
    (a b : RigidBodyData) (dt : ℚ) :
    (solve_friction fns c a b dt).2.1.id = a.id ∧
    (solve_friction fns c a b dt).2.1.body_type = a.body_type := by
  rw [solve_friction]
  split
  · exact ⟨rfl, rfl⟩
  · dsimp only
    split
    · dsimp only
      exact apply_position_correction_fst_id_type _ _ _ _ _ _ _
    · exact ⟨rfl, rfl⟩

/-- `solve_friction` never changes the second body's id or type. -/
theorem solve_friction_snd_id_type (fns : FloatFns) (c : PenetrationConstraint)
    (a b : RigidBodyData) (dt : ℚ) :
    (solve_friction fns c a b dt).2.2.id = b.id ∧
    (solve_friction fns c a b dt).2.2.body_type = b.body_type := by
  rw [solve_friction]
  split
  · exact ⟨rfl, rfl⟩
  · dsimp only
    split
    · dsimp only
      exact apply_position_correction_snd_id_type _ _ _ _ _ _ _
    · exact ⟨rfl, rfl⟩

/-- Indices past the end hold nothing. -/
theorem list_get?_eq_none_of_le {α : Type} (l : List α) (n : ℕ) (h : l.length ≤ n) :
    l.get? n = none := by
  induction l generalizing n with
  | nil => rfl
  | cons a t ih =>
    cases n with
    | zero => simp at h
    | succ n => simpa using ih n (by simpa using h)

/-- An element found in `take n` sits below `n`, at the same index of the
full list. -/
theorem list_take_get?_some {α : Type} {l : List α} {n j : ℕ} {x : α}
    (h : (l.take n).get? j = some x) : j < n ∧ l.get? j = some x := by
  have hj : j < n := by
    by_contra hb
    push_neg at hb
    have h1 : (l.take n).length ≤ j := by
      rw [List.length_take]
      exact le_trans (min_le_left _ _) hb
    rw [list_get?_eq_none_of_le _ _ h1] at h
    cases h
  refine ⟨hj, ?_⟩
  rw [← list_get?_take_lt l n j hj]
  exact h

/-- Mapping a pointwise-id-preserving function preserves the id list. -/
theorem list_map_map_congr {α γ : Type} (f : α → α) (g : α → γ)
    (hf : ∀ b, g (f b) = g b) (l : List α) : (l.map f).map g = l.map g := by
  induction l with
  | nil => rfl
  | cons a t ih => simp [hf, ih]

/-- A non-Dynamic body is untouched by a whole penetration-constraint
solve (`Constraint::solve`). -/
theorem solve_penetration_constraint_preserves_nondyn (fns : FloatFns)
    (c : PenetrationConstraint) (bodies : List RigidBodyData) (dt : ℚ) (i : ℕ)
    (b : RigidBodyData) (hi : bodies.get? i = some b) (hd : b.is_dynamic = false) :
    (solve_penetration_constraint fns c bodies dt).2.get? i = some b := by
  rw [solve_penetration_constraint]
  cases hidx : get_bodies_idx c.a c.b bodies with
  | none => exact hi
  | some pm =>
    obtain ⟨j, mid⟩ := pm
    dsimp only
    cases hta : (bodies.take mid).get? j with
    | none => exact hi
    | some body_a =>
      cases htb : (bodies.drop mid).head? with
      | none => exact hi
      | some body_b =>
        dsimp only
        obtain ⟨hjlt, hja⟩ := list_take_get?_some hta
        have hmb : bodies.get? mid = some body_b := by
          rw [← list_head?_drop]; exact htb
        apply set_pair_get?_preserve _ _ _ _ _ _ _ hi (Nat.ne_of_lt hjlt)
        · intro hij
          subst hij
          have hab : body_a = b := by
            rw [hi] at hja; exact (Option.some.inj hja).symm
          subst hab
          rw [solve_contact_nondyn_fst _ _ _ _ _ hd]
          rw [solve_friction_nondyn_fst _ _ _ _ _ hd]
        · intro him
          subst him
          have hab : body_b = b := by
            rw [hi] at hmb; exact (Option.some.inj hmb).symm
          subst hab
          rw [solve_contact_nondyn_snd _ _ _ _ _ hd]
          rw [solve_friction_nondyn_snd _ _ _ _ _ hd]

/-- `Constraint::solve` preserves the id sequence of the slice. -/
theorem solve_penetration_constraint_map_id (fns : FloatFns)
    (c : PenetrationConstraint) (bodies : List RigidBodyData) (dt : ℚ) :
    (solve_penetration_constraint fns c bodies dt).2.map (fun e => e.id) =
      bodies.map (fun e => e.id) := by
  rw [solve_penetration_constraint]
  cases hidx : get_bodies_idx c.a c.b bodies with
  | none => rfl
  | some pm =>
    obtain ⟨j, mid⟩ := pm
    dsimp only
    cases hta : (bodies.take mid).get? j with
    | none => rfl
    | some body_a =>
      cases htb : (bodies.drop mid).head? with
      | none => rfl
      | some body_b =>
        dsimp only
        obtain ⟨hjlt, hja⟩ := list_take_get?_some hta
        have hmb : bodies.get? mid = some body_b := by
          rw [← list_head?_drop]; exact htb
        have hid1 :
            (solve_friction fns (solve_contact fns c body_a body_b dt).1
              (solve_contact fns c body_a body_b dt).2.1
              (solve_contact fns c body_a body_b dt).2.2 dt).2.1.id = body_a.id := by
          calc (solve_friction fns (solve_contact fns c body_a body_b dt).1
                  (solve_contact fns c body_a body_b dt).2.1
                  (solve_contact fns c body_a body_b dt).2.2 dt).2.1.id
              = (solve_contact fns c body_a body_b dt).2.1.id :=
                (solve_friction_fst_id_type _ _ _ _ _).1
            _ = body_a.id := (solve_contact_fst_id_type _ _ _ _ _).1
        have hid2 :
            (solve_friction fns (solve_contact fns c body_a body_b dt).1
              (solve_contact fns c body_a body_b dt).2.1
              (solve_contact fns c body_a body_b dt).2.2 dt).2.2.id = body_b.id := by
          calc (solve_friction fns (solve_contact fns c body_a body_b dt).1
                  (solve_contact fns c body_a body_b dt).2.1
                  (solve_contact fns c body_a body_b dt).2.2 dt).2.2.id
              = (solve_contact fns c body_a body_b dt).2.2.id :=
                (solve_friction_snd_id_type _ _ _ _ _).1
            _ = body_b.id := (solve_contact_snd_id_type _ _ _ _ _).1
        have step1 := list_map_set_congr (bodies.set j
            (solve_friction fns (solve_contact fns c body_a body_b dt).1
              (solve_contact fns c body_a body_b dt).2.1
              (solve_contact fns c body_a body_b dt).2.2 dt).2.1) mid
            ((solve_friction fns (solve_contact fns c body_a body_b dt).1
              (solve_contact fns c body_a body_b dt).2.1
              (solve_contact fns c body_a body_b dt).2.2 dt).2.2)
            (fun e => e.id)
            (fun x hx => by
              rw [list_get?_set_ne _ _ _ _ (Nat.ne_of_lt hjlt)] at hx
              rw [hmb] at hx
              cases hx
              exact hid2)
        have step2 := list_map_set_congr bodies j
            ((solve_friction fns (solve_contact fns c body_a body_b dt).1
              (solve_contact fns c body_a body_b dt).2.1
              (solve_contact fns c body_a body_b dt).2.2 dt).2.1)
            (fun e => e.id)
            (fun x hx => by
              rw [hja] at hx
              cases hx
              exact hid1)
        rw [step1, step2]

/-- The two-index write-back pattern preserves the id sequence when the
written bodies keep the ids of the bodies they replace. -/
theorem set_pair_map_id (bodies : List RigidBodyData) (j mid : ℕ)
    (v1 v2 : RigidBodyData) (hjm : j ≠ mid)
    (h1 : ∀ x, bodies.get? j = some x → v1.id = x.id)
    (h2 : ∀ x, bodies.get? mid = some x → v2.id = x.id) :
    ((bodies.set j v1).set mid v2).map (fun e => e.id) =
      bodies.map (fun e => e.id) := by
  have s1 := list_map_set_congr (bodies.set j v1) mid v2 (fun e => e.id)
    (fun x hx => by
      rw [list_get?_set_ne _ _ _ _ hjm] at hx
      exact h2 x hx)
  have s2 := list_map_set_congr bodies j v1 (fun e => e.id) h1
  rw [s1, s2]

/-- A non-Dynamic body is untouched by the velocity solve of one
constraint. -/
theorem solve_velocity_constraint_preserves_nondyn (fns : FloatFns) (g : Vec3)
    (c : PenetrationConstraint) (bodies : List RigidBodyData) (dt : ℚ) (i : ℕ)
    (b : RigidBodyData) (hi : bodies.get? i = some b) (hd : b.is_dynamic = false) :
    (solve_velocity_constraint fns g c bodies dt).get? i = some b := by
  rw [solve_velocity_constraint]
  cases hidx : get_bodies_idx c.a c.b bodies with
  | none => exact hi
  | some pm =>
    obtain ⟨j, mid⟩ := pm
    dsimp only
    cases hta : (bodies.take mid).get? j with
    | none => exact hi
    | some body1 =>
      cases htb : (bodies.drop mid).head? with
      | none => exact hi
      | some body2 =>
        dsimp only
        obtain ⟨hjlt, hja⟩ := list_take_get?_some hta
        have hmb : bodies.get? mid = some body2 := by
          rw [← list_head?_drop]; exact htb
        split
        · exact hi
        · apply set_pair_get?_preserve _ _ _ _ _ _ _ hi (Nat.ne_of_lt hjlt)
          · intro hij
            subst hij
            have hab : body1 = b := by
              rw [hi] at hja; exact (Option.some.inj hja).symm
            subst hab
            simp [hd]
          · intro him
            subst him
            have hab : body2 = b := by
              rw [hi] at hmb; exact (Option.some.inj hmb).symm
            subst hab
            simp [hd]

/-- The velocity solve of one constraint preserves the id sequence. -/
theorem solve_velocity_constraint_map_id (fns : FloatFns) (g : Vec3)
    (c : PenetrationConstraint) (bodies : List RigidBodyData) (dt : ℚ) :
    (solve_velocity_constraint fns g c bodies dt).map (fun e => e.id) =
      bodies.map (fun e => e.id) := by
  rw [solve_velocity_constraint]
  cases hidx : get_bodies_idx c.a c.b bodies with
  | none => rfl
  | some pm =>
    obtain ⟨j, mid⟩ := pm
    dsimp only
    cases hta : (bodies.take mid).get? j with
    | none => rfl
    | some body1 =>
      cases htb : (bodies.drop mid).head? with
      | none => rfl
      | some body2 =>
        dsimp only
        obtain ⟨hjlt, hja⟩ := list_take_get?_some hta
        have hmb : bodies.get? mid = some body2 := by
          rw [← list_head?_drop]; exact htb
        split
        · rfl
        · apply set_pair_map_id _ _ _ _ _ (Nat.ne_of_lt hjlt)
          · intro x hx
            rw [hja] at hx
            cases hx
            split
            · rfl
            · rfl
          · intro x hx
            rw [hmb] at hx
            cases hx
            split
            · rfl
            · rfl

/-- One Gauss–Seidel pass over the constraints preserves non-Dynamic
bodies. -/
theorem solve_constraints_preserves_nondyn (fns : FloatFns) (dt : ℚ)
    (cs : List PenetrationConstraint) :
    ∀ (bodies : List RigidBodyData) (i : ℕ) (b : RigidBodyData),
      bodies.get? i = some b → b.is_dynamic = false →
      (solve_constraints fns cs bodies dt).2.get? i = some b := by
  induction cs with
  | nil => intro bodies i b hi _; exact hi
  | cons c cs ih =>
    intro bodies i b hi hd
    rw [solve_constraints]
    exact ih _ i b
      (solve_penetration_constraint_preserves_nondyn fns c bodies dt i b hi hd) hd

/-- One Gauss–Seidel pass preserves the id sequence. -/
theorem solve_constraints_map_id (fns : FloatFns) (dt : ℚ)
    (cs : List PenetrationConstraint) :
    ∀ (bodies : List RigidBodyData),
      (solve_constraints fns cs bodies dt).2.map (fun e => e.id) =
        bodies.map (fun e => e.id) := by
  induction cs with
  | nil => intro bodies; rfl
  | cons c cs ih =>
    intro bodies
    rw [solve_constraints]
    exact (ih _).trans (solve_penetration_constraint_map_id fns c bodies dt)

/-- The position-iteration loop preserves non-Dynamic bodies. -/
theorem position_iterations_loop_preserves_nondyn (fns : FloatFns) (dt : ℚ)
    (n : ℕ) :
    ∀ (cs : List PenetrationConstraint) (bodies : List RigidBodyData) (i : ℕ)
      (b : RigidBodyData), bodies.get? i = some b → b.is_dynamic = false →
      (position_iterations_loop fns n cs bodies dt).2.get? i = some b := by
  induction n with
  | zero => intro cs bodies i b hi _; exact hi
  | succ n ih =>
    intro cs bodies i b hi hd
    rw [position_iterations_loop, Function.iterate_succ_apply]
    exact ih (solve_constraints fns cs bodies dt).1 (solve_constraints fns cs bodies dt).2
      i b (solve_constraints_preserves_nondyn fns dt cs bodies i b hi hd) hd

/-- The position-iteration loop preserves the id sequence. -/
theorem position_iterations_loop_map_id (fns : FloatFns) (dt : ℚ) (n : ℕ) :
    ∀ (cs : List PenetrationConstraint) (bodies : List RigidBodyData),
      (position_iterations_loop fns n cs bodies dt).2.map (fun e => e.id) =
        bodies.map (fun e => e.id) := by
  induction n with
  | zero => intro cs bodies; rfl
  | succ n ih =>
    intro cs bodies
    rw [position_iterations_loop, Function.iterate_succ_apply]
    exact (ih (solve_constraints fns cs bodies dt).1
      (solve_constraints fns cs bodies dt).2).trans (solve_constraints_map_id fns dt cs bodies)

/-- The velocity solve preserves non-Dynamic bodies. -/
theorem solve_velocities_preserves_nondyn (fns : FloatFns) (g : Vec3) (dt : ℚ)
    (cs : List PenetrationConstraint) :
    ∀ (bodies : List RigidBodyData) (i : ℕ) (b : RigidBodyData),
      bodies.get? i = some b → b.is_dynamic = false →
      (solve_velocities fns g cs bodies dt).get? i = some b := by
  induction cs with
  | nil => intro bodies i b hi _; exact hi
  | cons c cs ih =>
    intro bodies i b hi hd
    rw [solve_velocities, List.foldl_cons]
    exact ih _ i b
      (solve_velocity_constraint_preserves_nondyn fns g c bodies dt i b hi hd) hd

/-- The velocity solve preserves the id sequence. -/
theorem solve_velocities_map_id (fns : FloatFns) (g : Vec3) (dt : ℚ)
    (cs : List PenetrationConstraint) :
    ∀ (bodies : List RigidBodyData),
      (solve_velocities fns g cs bodies dt).map (fun e => e.id) =
        bodies.map (fun e => e.id) := by
  induction cs with
  | nil => intro bodies; rfl
  | cons c cs ih =>
    intro bodies
    rw [solve_velocities, List.foldl_cons]
    exact (ih _).trans (solve_velocity_constraint_map_id fns g c bodies dt)

/-- Integration skips non-Dynamic bodies entirely. -/
theorem integrate_body_nondyn (fns : FloatFns) (g : Vec3) (dt : ℚ)
    (b : RigidBodyData) (h : b.is_dynamic = false) :
    integrate_body fns g dt b = b := by
  rw [integrate_body]
  simp [h]

/-- Integration never changes a body's id or type. -/
theorem integrate_body_id_type (fns : FloatFns) (g : Vec3) (dt : ℚ)
    (b : RigidBodyData) :
    (integrate_body fns g dt b).id = b.id ∧
    (integrate_body fns g dt b).body_type = b.body_type := by
  rw [integrate_body]
  split
  · exact ⟨rfl, rfl⟩
  · exact ⟨rfl, rfl⟩

/-- `recompute_velocities` zeroes the velocities of a non-Dynamic body and
touches nothing else. -/
theorem recompute_velocities_body_nondyn (dt : ℚ) (b : RigidBodyData)
    (h : b.is_dynamic = false) :
    recompute_velocities_body dt b =
      { b with linear_velocity := Vec3.ZERO, angular_velocity := Vec3.ZERO, is_dirty := true } := by
  rw [recompute_velocities_body]
  simp [h, RigidBodyData.set_linear_velocity, RigidBodyData.set_angular_velocity]

/-- `recompute_velocities` never changes a body's id or type. -/
theorem recompute_velocities_body_id_type (dt : ℚ) (b : RigidBodyData) :
    (recompute_velocities_body dt b).id = b.id ∧
    (recompute_velocities_body dt b).body_type = b.body_type := by
  rw [recompute_velocities_body]
  split
  · exact ⟨rfl, rfl⟩
  · exact ⟨rfl, rfl⟩

/-- The kinematic sync resolves a Kinematic body to its override pose (or
leaves it alone). -/
theorem sync_kinematic_bodies_get? (fns : FloatFns)
    (ov : ℕ → Option (Vec3 × Quat)) (bodies : List RigidBodyData) (i : ℕ)
    (b : RigidBodyData) (hi : bodies.get? i = some b) (hk : b.is_kinematic = true) :
    (sync_kinematic_bodies fns ov bodies).get? i =
      some (match ov b.id with
        | none => b
        | some pr => (b.set_rotation fns pr.2).set_position pr.1) := by
  rw [sync_kinematic_bodies, List.get?_map, hi, Option.map_some']
  simp [hk]

/-- The kinematic sync leaves non-Kinematic bodies alone. -/
theorem sync_kinematic_bodies_get?_nonkin (fns : FloatFns)
    (ov : ℕ → Option (Vec3 × Quat)) (bodies : List RigidBodyData) (i : ℕ)
    (b : RigidBodyData) (hi : bodies.get? i = some b) (hk : b.is_kinematic = false) :
    (sync_kinematic_bodies fns ov bodies).get? i = some b := by
  rw [sync_kinematic_bodies, List.get?_map, hi, Option.map_some']
  simp [hk]

/-- The kinematic sync preserves the id sequence. -/
theorem sync_kinematic_bodies_map_id (fns : FloatFns)
    (ov : ℕ → Option (Vec3 × Quat)) (bodies : List RigidBodyData) :
    (sync_kinematic_bodies fns ov bodies).map (fun e => e.id) =
      bodies.map (fun e => e.id) := by
  rw [sync_kinematic_bodies]
  apply list_map_map_congr
  intro b
  dsimp only
  split
  · rfl
  · cases ov b.id with
    | none => rfl
    | some pr => rfl

/-- A whole substep zeroes a non-Dynamic body's velocities and leaves the
rest of it (pose included) unchanged. -/
theorem substep_nondyn_at (fns : FloatFns)
    (narrow : List RigidBodyData → List PenetrationConstraint) (g : Vec3)
    (pit : ℕ) (dt : ℚ) (bodies : List RigidBodyData) (i : ℕ) (b : RigidBodyData)
    (hi : bodies.get? i = some b) (hd : b.is_dynamic = false) :
    (substep fns narrow g pit dt bodies).get? i =
      some { b with linear_velocity := Vec3.ZERO, angular_velocity := Vec3.ZERO, is_dirty := true } := by
  rw [substep]
  have h1 : (integrate_bodies fns g dt bodies).get? i = some b := by
    rw [integrate_bodies, List.get?_map, hi, Option.map_some',
      integrate_body_nondyn fns g dt b hd]
  have h2 := position_iterations_loop_preserves_nondyn fns dt pit (narrow bodies)
    (integrate_bodies fns g dt bodies) i b h1 hd
  have h3 : (recompute_velocities dt
      (position_iterations_loop fns pit (narrow bodies)
        (integrate_bodies fns g dt bodies) dt).2).get? i =
      some { b with linear_velocity := Vec3.ZERO, angular_velocity := Vec3.ZERO, is_dirty := true } := by
    rw [recompute_velocities, List.get?_map, h2, Option.map_some',
      recompute_velocities_body_nondyn dt b hd]
  exact solve_velocities_preserves_nondyn fns g dt _ _ i _ h3 hd

/-- A whole substep preserves the id sequence. -/
theorem substep_map_id (fns : FloatFns)
    (narrow : List RigidBodyData → List PenetrationConstraint) (g : Vec3)
    (pit : ℕ) (dt : ℚ) (bodies : List RigidBodyData) :
    (substep fns narrow g pit dt bodies).map (fun e => e.id) =
      bodies.map (fun e => e.id) := by
  rw [substep]
  refine (solve_velocities_map_id fns g dt _ _).trans ?_
  refine Eq.trans ?_ ((position_iterations_loop_map_id fns dt pit (narrow bodies)
    (integrate_bodies fns g dt bodies)).trans ?_)
  · rw [recompute_velocities]
    exact list_map_map_congr _ _ (fun b => (recompute_velocities_body_id_type dt b).1) _
  · rw [integrate_bodies]
    exact list_map_map_congr _ _ (fun b => (integrate_body_id_type fns g dt b).1) _

/-- Iterated substeps preserve the id sequence. -/
theorem substeps_map_id (fns : FloatFns)
    (narrow : List RigidBodyData → List PenetrationConstraint) (g : Vec3)
    (pit : ℕ) (dt : ℚ) (n : ℕ) :
    ∀ (bodies : List RigidBodyData),
      (((substep fns narrow g pit dt)^[n]) bodies).map (fun e => e.id) =
        bodies.map (fun e => e.id) := by
  induction n with
  | zero => intro bodies; rfl
  | succ n ih =>
    intro bodies
    rw [Function.iterate_succ_apply]
    exact (ih _).trans (substep_map_id fns narrow g pit dt bodies)

/-- At least one substep leaves a non-Dynamic body with zeroed velocities
and an otherwise unchanged state. -/
theorem substeps_nondyn_at (fns : FloatFns)
    (narrow : List RigidBodyData → List PenetrationConstraint) (g : Vec3)
    (pit : ℕ) (dt : ℚ) (n : ℕ) :
    ∀ (bodies : List RigidBodyData) (i : ℕ) (b : RigidBodyData),
      bodies.get? i = some b → b.is_dynamic = false →
      (((substep fns narrow g pit dt)^[n + 1]) bodies).get? i =
        some { b with linear_velocity := Vec3.ZERO, angular_velocity := Vec3.ZERO, is_dirty := true } := by
  induction n with
  | zero =>
    intro bodies i b hi hd
    rw [Function.iterate_one]
    exact substep_nondyn_at fns narrow g pit dt bodies i b hi hd
  | succ n ih =>
    intro bodies i b hi hd
    rw [Function.iterate_succ_apply]
    have h1 := substep_nondyn_at fns narrow g pit dt bodies i b hi hd
    have h2 := ih (substep fns narrow g pit dt bodies) i
      { b with linear_velocity := Vec3.ZERO, angular_velocity := Vec3.ZERO, is_dirty := true }
      h1 hd
    exact h2

/-- C9: Kinematic bodies pass through the solver unmoved — integration
skips them and position corrections never touch them; after a step with at
least one substep, a Kinematic body's position is its override position
(its prior position when no override was supplied), its rotation is the
renormalized override rotation (its prior rotation without an override),
and both velocities are zero. -/
theorem c9_kinematic_passthrough (fns : FloatFns)
    (narrow : List RigidBodyData → List PenetrationConstraint) (gravity : Vec3)
    (nSub nIter : ℕ) (dt : ℚ) (overrides : ℕ → Option (Vec3 × Quat))
    (bodies : List RigidBodyData) (i : ℕ) (body : RigidBodyData)
    (hi : bodies.get? i = some body) (hk : body.is_kinematic = true)
    (hn : 1 ≤ nSub) :
    (∃ b2, (step_world_bodies fns narrow gravity nSub nIter dt overrides bodies).get? i =
        some b2 ∧
      b2.position = (match overrides body.id with
        | some pr => pr.1
        | none => body.position) ∧
      b2.rotation = (match overrides body.id with
        | some pr => Quat.normalize fns pr.2
        | none => body.rotation) ∧
      b2.linear_velocity = Vec3.ZERO ∧ b2.angular_velocity = Vec3.ZERO) ∧
    integrate_body fns gravity dt body = body ∧
    (∀ (other : RigidBodyData) (dl : ℚ) (dir ra rb : Vec3),
      (apply_position_correction fns body other dl dir ra rb).1 = body) := by
  have hd := kinematic_not_dynamic body hk
  refine ⟨?_, integrate_body_nondyn fns gravity dt body hd,
    fun other dl dir ra rb =>
      apply_position_correction_nondyn_fst fns body other dl dir ra rb hd⟩
  obtain ⟨m, rfl⟩ : ∃ m, nSub = m + 1 := ⟨nSub - 1, by omega⟩
  rw [step_world_bodies]
  have hsync := sync_kinematic_bodies_get? fns overrides bodies i body hi hk
  cases hov : overrides body.id with
  | none =>
    simp only [hov] at hsync
    refine ⟨_, substeps_nondyn_at fns narrow gravity nIter dt m _ i body hsync hd,
      ?_, ?_, rfl, rfl⟩
    · simp [hov]
    · simp [hov]
  | some pr =>
    simp only [hov] at hsync
    have hd2 : ((body.set_rotation fns pr.2).set_position pr.1).is_dynamic = false := hd
    refine ⟨_, substeps_nondyn_at fns narrow gravity nIter dt m _ i _ hsync hd2,
      ?_, ?_, rfl, rfl⟩
    · simp [hov, RigidBodyData.set_position, RigidBodyData.set_rotation]
    · simp [hov, RigidBodyData.set_position, RigidBodyData.set_rotation]

/-- Witness for C9: a Kinematic body (id 3) with an override pose. -/
theorem c9_witness :
    (∃ b2, (step_world_bodies fns0 narrow0 Vec3.ZERO 1 1 (1 / 60) cex9_overrides
        [cex9_k]).get? 0 = some b2 ∧
      b2.position = (match cex9_overrides cex9_k.id with
        | some pr => pr.1
        | none => cex9_k.position) ∧
      b2.rotation = (match cex9_overrides cex9_k.id with
        | some pr => Quat.normalize fns0 pr.2
        | none => cex9_k.rotation) ∧
      b2.linear_velocity = Vec3.ZERO ∧ b2.angular_velocity = Vec3.ZERO) ∧
    integrate_body fns0 Vec3.ZERO (1 / 60) cex9_k = cex9_k ∧
    (∀ (other : RigidBodyData) (dl : ℚ) (dir ra rb : Vec3),
      (apply_position_correction fns0 cex9_k other dl dir ra rb).1 = cex9_k) :=
  c9_kinematic_passthrough fns0 narrow0 Vec3.ZERO 1 1 (1 / 60) cex9_overrides
    [cex9_k] 0 cex9_k rfl rfl (by omega)

/-- C6 amended: `step_world` hands an update to the store for every body
of the snapshot, in order, whether or not the step mutated it (the
`is_dirty` flag is maintained by the setters but never consulted by the
writeback loop). -/
theorem c6_every_body_written_back (fns : FloatFns)
    (narrow : List RigidBodyData → List PenetrationConstraint) (gravity : Vec3)
    (nSub nIter : ℕ) (dt : ℚ) (overrides : ℕ → Option (Vec3 × Quat))
    (bodies : List RigidBodyData) :
    update_bodies_ids (step_world_bodies fns narrow gravity nSub nIter dt overrides bodies) =
      update_bodies_ids bodies := by
  rw [update_bodies_ids, update_bodies_ids, step_world_bodies]
  exact (substeps_map_id fns narrow gravity nIter dt nSub _).trans
    (sync_kinematic_bodies_map_id fns overrides bodies)

/-- C6 counterexample: a Static body (id 7) whose stored fields the step
leaves entirely unchanged is still handed to the writeback sink. -/
theorem c6_counterexample :
    (∃ b2, (step_world_bodies fns0 narrow0 Vec3.ZERO 1 1 (1 / 60) overrides_none
        [cex6_b]).get? 0 = some b2 ∧
      b2.position = cex6_b.position ∧ b2.rotation = cex6_b.rotation ∧
      b2.linear_velocity = cex6_b.linear_velocity ∧
      b2.angular_velocity = cex6_b.angular_velocity ∧
      b2.force = cex6_b.force ∧ b2.torque = cex6_b.torque) ∧
    update_bodies_ids (step_world_bodies fns0 narrow0 Vec3.ZERO 1 1 (1 / 60)
      overrides_none [cex6_b]) = [7] := by
  constructor
  · refine ⟨{ cex6_b with linear_velocity := Vec3.ZERO, angular_velocity := Vec3.ZERO, is_dirty := true }, ?_, rfl, rfl, rfl, rfl, rfl, rfl⟩
    rw [step_world_bodies]
    exact substeps_nondyn_at fns0 narrow0 Vec3.ZERO 1 (1 / 60) 0 _ 0 cex6_b
      (sync_kinematic_bodies_get?_nonkin fns0 overrides_none [cex6_b] 0 cex6_b rfl rfl) rfl
  · have h := (substeps_map_id fns0 narrow0 Vec3.ZERO 1 (1 / 60) 1
      (sync_kinematic_bodies fns0 overrides_none [cex6_b])).trans
      (sync_kinematic_bodies_map_id fns0 overrides_none [cex6_b])
    exact h.trans rfl

/-- C1: after `recompute_velocities`, every Dynamic body's angular
velocity equals `axis_of(rotation · previous_rotation⁻¹) / dt`, where
`axis_of` is the cited `Quat::as_radians` applied to the pose-delta
quaternion `rotation * previous_rotation.inverse()`. -/
theorem c1_recompute_angular_velocity_eq (dt : ℚ) (bodies : List RigidBodyData)
    (i : ℕ) (body : RigidBodyData) (h1 : bodies.get? i = some body)
    (h2 : body.is_dynamic = true) :
    ∃ b2, (recompute_velocities dt bodies).get? i = some b2 ∧
      b2.angular_velocity =
        (((body.rotation * body.previous_rotation.inverse : Quat).as_radians) / dt : Vec3) := by
  refine ⟨recompute_velocities_body dt body, ?_, ?_⟩
  · rw [recompute_velocities, List.get?_map, h1, Option.map_some']
  · simp [recompute_velocities_body, h2, RigidBodyData.set_pre_solve_linear_velocity,
      RigidBodyData.set_linear_velocity, RigidBodyData.set_pre_solve_angular_velocity,
      RigidBodyData.set_angular_velocity]

/-- Witness for C1 on a concrete one-element body slice. -/
theorem c1_witness :
    ∃ b2, (recompute_velocities 1 [cex3_body]).get? 0 = some b2 ∧
      b2.angular_velocity =
        (((cex3_body.rotation * cex3_body.previous_rotation.inverse : Quat).as_radians) /
          (1 : ℚ) : Vec3) :=
  c1_recompute_angular_velocity_eq 1 [cex3_body] 0 cex3_body rfl (by decide)

/-- C2: the static-friction stick test compares the slide against
`μ_s · C` with the *signed* penetration distance `C = −1`, not against
`μ_s · |C|`.  At this input the tangential slide is `1/2` (above ε), the
claim's condition `|Δp_t| < μ_s·|C|` holds (`1/2 < 1`), yet the code's
condition is false and `solve_friction` applies no friction correction at
all: constraint and both bodies are returned unchanged. -/
theorem c2_static_friction_condition_uses_signed_depth :
    friction_sliding_len fns0 cex2_c cex2_b1 cex2_b2 = 1 / 2 ∧
    EPSILON < 1 / 2 ∧
    ((1 / 2 : ℚ) <
      cex2_b1.combine_static_friction cex2_b2 * |cex2_c.penetration_depth|) ∧
    ¬ ((1 / 2 : ℚ) <
      cex2_b1.combine_static_friction cex2_b2 * cex2_c.penetration_depth) ∧
    solve_friction fns0 cex2_c cex2_b1 cex2_b2 (1 / 10) = (cex2_c, cex2_b1, cex2_b2) := by
  refine ⟨?_, ?_, ?_, ?_, ?_⟩ <;>
    norm_num [friction_sliding_len, solve_friction, fns0, EPSILON, cex2_c, cex2_b1, cex2_b2,
      Vec3.length, Vec3.length_squared, Vec3.dot, Quat.rotate, Quat.IDENTITY, Vec3.ZERO,
      RigidBodyData.combine_static_friction]

/-- C3 counterexample: the claim's update `q + 0.5·dt·quat(ω,0)·q`
(angular-velocity quaternion multiplied on the LEFT) differs from what
`integrate_bodies` computes.  At this input the integrated angular
velocity equals the initial one and all square roots taken are of perfect
squares, so the `ℚ` evaluation coincides with the `f32` one: the code
yields rotation `(4/5, 0, 3/5, 0)` while the claim's formula yields
`(4/5, 0, −3/5, 0)`. -/
theorem c3_counterexample :
    (integrate_body fns0 Vec3.ZERO 1 cex3_body).rotation ≠
      Quat.normalize fns0 (cex3_body.rotation +
        ((1 / 2 : ℚ) * 1 *
          Quat.from_xyz (integrate_body fns0 Vec3.ZERO 1 cex3_body).angular_velocity 0 : Quat) *
          cex3_body.rotation) := by
  norm_num [integrate_body, cex3_body, fns0, Vec3.ZERO, Quat.IDENTITY, Mat3.IDENTITY,
    Quat.from_xyz, Quat.normalize, Vec3.cross, Vec3.splat,
    RigidBodyData.is_dynamic, RigidBodyData.effective_mass, RigidBodyData.effective_inverse_mass,
    RigidBodyData.set_previous_position, RigidBodyData.set_linear_velocity,
    RigidBodyData.set_position, RigidBodyData.set_previous_rotation,
    RigidBodyData.set_angular_velocity, RigidBodyData.set_rotation,
    RigidBodyData.set_torque, RigidBodyData.set_force]

/-- C3 amended: during integration a Dynamic body's rotation is updated as
`q ← q + 0.5·dt·q·quat(ω,0)` — the angular-velocity quaternion multiplied
on the RIGHT of the current rotation, with ω the freshly integrated
angular velocity — and the result is then renormalized. -/
theorem c3_integrate_rotation_right_mul (fns : FloatFns) (gravity : Vec3) (dt : ℚ)
    (body : RigidBodyData) (h : body.is_dynamic = true) :
    (integrate_body fns gravity dt body).rotation =
      Quat.normalize fns (body.rotation +
        ((1 / 2 : ℚ) * dt * body.rotation : Quat) *
          Quat.from_xyz (integrate_body fns gravity dt body).angular_velocity 0) := by
  simp [integrate_body, h, RigidBodyData.set_previous_position,
    RigidBodyData.set_linear_velocity, RigidBodyData.set_position,
    RigidBodyData.set_previous_rotation, RigidBodyData.set_angular_velocity,
    RigidBodyData.set_rotation, RigidBodyData.set_torque, RigidBodyData.set_force]

/-- Witness for the amended C3 at a concrete Dynamic body. -/
theorem c3_witness :
    (integrate_body fns0 Vec3.ZERO 1 cex3_body).rotation =
      Quat.normalize fns0 (cex3_body.rotation +
        ((1 / 2 : ℚ) * 1 * cex3_body.rotation : Quat) *
          Quat.from_xyz (integrate_body fns0 Vec3.ZERO 1 cex3_body).angular_velocity 0) :=
  c3_integrate_rotation_right_mul fns0 Vec3.ZERO 1 cex3_body (by decide)

/-- C7: with two infinite-mass bodies (both inverse masses 0, unit normal
gradients) and zero compliance, `w_sum = 0`, the source guard
`w_sum == f32::EPSILON` does not fire, and `compute_lagrange_update`
reaches its division with denominator `w_sum + α̃ = 0` — in `f32` the
quotient is non-finite, not the 0 the claim requires. -/
theorem c7_lagrange_division_by_zero :
    lagrange_update_division_hits_zero [⟨0, 0, 1⟩, ⟨0, 0, -1⟩] [0, 0] 0 (1 / 120) ∧
    lagrange_w_sum [⟨0, 0, 1⟩, ⟨0, 0, -1⟩] [0, 0] = 0 := by
  norm_num [lagrange_update_division_hits_zero, lagrange_w_sum, EPSILON, Vec3.length_squared]

/-- C8: the restitution correction is
`n·(−v_n + min(−e·v̂_n, 0))` with `e` the mean of the two bodies'
restitution coefficients, and `e` is forced to 0 whenever
`|v_n| ≤ 2·|g|·dt`; at or below that rest threshold the correction is
exactly `−v_n·n` — no restitution bounce. -/
theorem c8_restitution_formula (fns : FloatFns) (normal : Vec3)
    (normal_vel pre_solve_normal_vel coefficient : ℚ) (gravity : Vec3)
    (sub_dt : ℚ) (a b : RigidBodyData) :
    get_restitution fns normal normal_vel pre_solve_normal_vel coefficient gravity sub_dt =
      (normal *
        (-normal_vel +
          min (-(if |normal_vel| ≤ 2 * gravity.length fns * sub_dt then 0 else coefficient) *
            pre_solve_normal_vel) 0) : Vec3) ∧
    a.combine_restitution b = (a.restitution_coefficient + b.restitution_coefficient) / 2 ∧
    (|normal_vel| ≤ 2 * gravity.length fns * sub_dt →
      get_restitution fns normal normal_vel pre_solve_normal_vel coefficient gravity sub_dt =
        (normal * (-normal_vel) : Vec3)) := by
  refine ⟨rfl, rfl, fun h => ?_⟩
  simp [get_restitution, h]

/-- Witness for C8 at a contact below the rest threshold. -/
theorem c8_witness :
    get_restitution fns0 ⟨0, 0, 1⟩ 0 5 (1 / 2) Vec3.ZERO (1 / 60) =
      ((⟨0, 0, 1⟩ : Vec3) * (-(0 : ℚ)) : Vec3) :=
  (c8_restitution_formula fns0 ⟨0, 0, 1⟩ 0 5 (1 / 2) Vec3.ZERO (1 / 60) cex2_b1 cex2_b2).2.2
    (by norm_num [Vec3.length, Vec3.length_squared, Vec3.ZERO, fns0])

/-- Membership in a `HashSet` insert. -/
theorem hash_set_insert_mem {α : Type} [DecidableEq α] (x y : α) (s : List α) :
    y ∈ hash_set_insert x s ↔ y = x ∨ y ∈ s := by
  by_cases hx : x ∈ s
  · rw [hash_set_insert, if_pos hx]
    constructor
    · exact Or.inr
    · rintro (rfl | hy)
      exacts [hx, hy]
  · rw [hash_set_insert, if_neg hx]
    simp [or_comm]

/-- Membership in the per-ray hit set collected by `narrow_phase_raycast`:
exactly the successful casts of the candidates. -/
theorem collect_hits_mem (cast_ray : ℕ → Option RayCastHit)
    (candidates : List ℕ) (h : RayCastHit) :
    ∀ (init : List RayCastHit),
      (h ∈ candidates.foldl
        (fun s c =>
          match cast_ray c with
          | some hh => hash_set_insert hh s
          | none => s) init) ↔ h ∈ init ∨ ∃ c ∈ candidates, cast_ray c = some h := by
  induction candidates with
  | nil => intro init; simp
  | cons c cs ih =>
    intro init
    rw [List.foldl_cons]
    cases hc : cast_ray c with
    | none =>
      rw [ih]
      constructor
      · rintro (hin | ⟨c2, hc2, hcast⟩)
        · exact Or.inl hin
        · exact Or.inr ⟨c2, List.mem_cons_of_mem _ hc2, hcast⟩
      · rintro (hin | ⟨c2, hc2, hcast⟩)
        · exact Or.inl hin
        · rcases List.mem_cons.mp hc2 with rfl | hc2
          · rw [hc] at hcast; cases hcast
          · exact Or.inr ⟨c2, hc2, hcast⟩
    | some hh =>
      rw [ih]
      constructor
      · rintro (hins | ⟨c2, hc2, hcast⟩)
        · rcases (hash_set_insert_mem hh h init).mp hins with rfl | hin
          · exact Or.inr ⟨c, List.mem_cons_self _ _, hc⟩
          · exact Or.inl hin
        · exact Or.inr ⟨c2, List.mem_cons_of_mem _ hc2, hcast⟩
      · rintro (hin | ⟨c2, hc2, hcast⟩)
        · exact Or.inl ((hash_set_insert_mem hh h init).mpr (Or.inr hin))
        · rcases List.mem_cons.mp hc2 with rfl | hc2
          · rw [hc] at hcast
            exact Or.inl ((hash_set_insert_mem hh h init).mpr
              (Or.inl (Option.some.inj hcast).symm))
          · exact Or.inr ⟨c2, hc2, hcast⟩

/-- Membership in the `HashSet` built from the previous hit vector. -/
theorem fold_insert_mem {α : Type} [DecidableEq α] (l : List α) (x : α) :
    ∀ (init : List α),
      (x ∈ l.foldl (fun s h => hash_set_insert h s) init) ↔ x ∈ init ∨ x ∈ l := by
  induction l with
  | nil => intro init; simp
  | cons a t ih =>
    intro init
    rw [List.foldl_cons, ih]
    rw [hash_set_insert_mem]
    constructor
    · rintro ((rfl | hin) | ht)
      · exact Or.inr (List.mem_cons_self _ _)
      · exact Or.inl hin
      · exact Or.inr (List.mem_cons_of_mem _ ht)
    · rintro (hin | hat)
      · exact Or.inl (Or.inr hin)
      · rcases List.mem_cons.mp hat with rfl | ht
        · exact Or.inl (Or.inl rfl)
        · exact Or.inr ht

/-- C5 counterexample: a raycast whose broad-phase candidate set is empty
(so its new hit set is empty) is skipped by `narrow_phase_raycast`: its
stored hits stay as they were, `removed_hits` is not updated, and no
update is handed to the store — contradicting the claimed
empty-hits/removed-hits outcome. -/
theorem c5_counterexample :
    (narrow_phase_raycast_one (fun _ => none) [] cex5_rc).1.hits = [cex5_hit] ∧
    (narrow_phase_raycast_one (fun _ => none) [] cex5_rc).1.removed_hits = [] ∧
    (narrow_phase_raycast_one (fun _ => none) [] cex5_rc).2 = false :=
  ⟨rfl, rfl, rfl⟩

/-- C5 amended: for every raycast that has at least one broad-phase
candidate body, the stored hit set is replaced by the set of per-shape
hits of its candidates, `added_hits` is the new set minus the previous
hits, `removed_hits` is the previous hits minus the new set (set
difference under canonical-bit-pattern hit equality), and the raycast is
handed to the store.  A raycast with no candidates is skipped entirely. -/
theorem c5_raycast_diff_sets (cast_ray : ℕ → Option RayCastHit)
    (candidates : List ℕ) (rc : RayCastState) (hne : candidates ≠ []) :
    (narrow_phase_raycast_one cast_ray candidates rc).2 = true ∧
    (∀ h, h ∈ (narrow_phase_raycast_one cast_ray candidates rc).1.hits ↔
      ∃ c ∈ candidates, cast_ray c = some h) ∧
    (∀ h, h ∈ (narrow_phase_raycast_one cast_ray candidates rc).1.added_hits ↔
      (∃ c ∈ candidates, cast_ray c = some h) ∧ ¬ h ∈ rc.hits) ∧
    (∀ h, h ∈ (narrow_phase_raycast_one cast_ray candidates rc).1.removed_hits ↔
      h ∈ rc.hits ∧ ¬ ∃ c ∈ candidates, cast_ray c = some h) := by
  have hcond : ¬ (candidates.isEmpty = true) := by
    simpa [List.isEmpty_iff] using hne
  rw [narrow_phase_raycast_one, if_neg hcond]
  dsimp only
  refine ⟨rfl, ?_, ?_, ?_⟩
  · intro h
    simpa using collect_hits_mem cast_ray candidates h []
  · intro h
    rw [List.mem_filter]
    constructor
    · rintro ⟨hmem, hdec⟩
      refine ⟨by simpa using (collect_hits_mem cast_ray candidates h []).mp hmem, ?_⟩
      intro hprev
      rw [decide_eq_true_eq] at hdec
      exact hdec ((fold_insert_mem rc.hits h []).mpr (Or.inr hprev))
    · rintro ⟨hex, hprev⟩
      refine ⟨(collect_hits_mem cast_ray candidates h []).mpr (Or.inr hex), ?_⟩
      rw [decide_eq_true_eq]
      intro hmem
      rcases (fold_insert_mem rc.hits h []).mp hmem with hin | hin
      · simp at hin
      · exact hprev hin
  · intro h
    rw [List.mem_filter]
    constructor
    · rintro ⟨hmem, hdec⟩
      rcases (fold_insert_mem rc.hits h []).mp hmem with hin | hin
      · simp at hin
      · refine ⟨hin, ?_⟩
        rw [decide_eq_true_eq] at hdec
        intro hex
        exact hdec ((collect_hits_mem cast_ray candidates h []).mpr (Or.inr hex))
    · rintro ⟨hprev, hex⟩
      refine ⟨(fold_insert_mem rc.hits h []).mpr (Or.inr hprev), ?_⟩
      rw [decide_eq_true_eq]
      intro hmem
      exact hex (by simpa using (collect_hits_mem cast_ray candidates h []).mp hmem)

/-- Witness for the amended C5: one candidate body, hit at distance 1. -/
theorem c5_witness :
    (narrow_phase_raycast_one cex4_cast [1] cex5_rc).2 = true ∧
    (∀ h, h ∈ (narrow_phase_raycast_one cex4_cast [1] cex5_rc).1.hits ↔
      ∃ c ∈ [1], cex4_cast c = some h) ∧
    (∀ h, h ∈ (narrow_phase_raycast_one cex4_cast [1] cex5_rc).1.added_hits ↔
      (∃ c ∈ [1], cex4_cast c = some h) ∧ ¬ h ∈ cex5_rc.hits) ∧
    (∀ h, h ∈ (narrow_phase_raycast_one cex4_cast [1] cex5_rc).1.removed_hits ↔
      h ∈ cex5_rc.hits ∧ ¬ ∃ c ∈ [1], cex4_cast c = some h) :=
  c5_raycast_diff_sets cex4_cast [1] cex5_rc (by simp)

/-- C4 counterexample: the vectors handed to the raycast writeback are
collected from `std::collections::HashSet`s in their iteration order,
which depends on the process's hash seed and not on the snapshot.  Two
iteration orders of the *same* broad-phase candidate set produce
differently ordered — hence not byte-identical — `hits` vectors, and two
enumeration orders of the *same* stored previous-hits set (identical
snapshot, identical candidate list, different hash seed) produce
differently ordered `removed_hits` vectors. -/
theorem c4_counterexample :
    ([1, 2] : List ℕ).Perm [2, 1] ∧
    (narrow_phase_raycast_one_seeded (fun l => l) cex4_cast [1, 2] cex4_rc).1.hits ≠
      (narrow_phase_raycast_one_seeded (fun l => l) cex4_cast [2, 1] cex4_rc).1.hits ∧
    (narrow_phase_raycast_one_seeded (fun l => l) (fun _ => none) [9] cex4_rc2).1.removed_hits ≠
      (narrow_phase_raycast_one_seeded (fun l => l.reverse) (fun _ => none) [9] cex4_rc2).1.removed_hits := by
  refine ⟨List.Perm.swap 2 1 [], ?_, ?_⟩
  · norm_num [narrow_phase_raycast_one_seeded, cex4_cast, cex4_rc, hash_set_insert,
      RayCastHit.mk.injEq]
  · norm_num [narrow_phase_raycast_one_seeded, cex4_rc2, hash_set_insert,
      RayCastHit.mk.injEq]

/-- C4 amended: the raycast writeback is deterministic only up to the
seed-dependent `HashSet` iteration orders: for byte-identical snapshots
processed under any two hash seeds — candidate sets that are permutations
of each other, and any two membership-preserving enumeration orders of
the per-ray hit sets — the writeback flag coincides and the `hits`,
`added_hits` and `removed_hits` vectors agree as sets; they are
byte-identical only when the two runs' iteration orders coincide. -/
theorem c4_raycast_writeback_perm
    (ord1 ord2 : List RayCastHit → List RayCastHit)
    (cast_ray : ℕ → Option RayCastHit)
    (cand1 cand2 : List ℕ) (rc : RayCastState)
    (hord1 : ∀ (l : List RayCastHit) (x : RayCastHit), x ∈ ord1 l ↔ x ∈ l)
    (hord2 : ∀ (l : List RayCastHit) (x : RayCastHit), x ∈ ord2 l ↔ x ∈ l)
    (hperm : cand1.Perm cand2) :
    (narrow_phase_raycast_one_seeded ord1 cast_ray cand1 rc).2 =
      (narrow_phase_raycast_one_seeded ord2 cast_ray cand2 rc).2 ∧
    (∀ h, h ∈ (narrow_phase_raycast_one_seeded ord1 cast_ray cand1 rc).1.hits ↔
      h ∈ (narrow_phase_raycast_one_seeded ord2 cast_ray cand2 rc).1.hits) ∧
    (∀ h, h ∈ (narrow_phase_raycast_one_seeded ord1 cast_ray cand1 rc).1.added_hits ↔
      h ∈ (narrow_phase_raycast_one_seeded ord2 cast_ray cand2 rc).1.added_hits) ∧
    (∀ h, h ∈ (narrow_phase_raycast_one_seeded ord1 cast_ray cand1 rc).1.removed_hits ↔
      h ∈ (narrow_phase_raycast_one_seeded ord2 cast_ray cand2 rc).1.removed_hits) := by
  by_cases h1 : cand1 = []
  · subst h1
    have h2 : cand2 = [] := hperm.symm.eq_nil
    subst h2
    exact ⟨rfl, fun h => Iff.rfl, fun h => Iff.rfl, fun h => Iff.rfl⟩
  · have h2 : cand2 ≠ [] := by
      intro hc
      subst hc
      exact h1 hperm.eq_nil
    have hex : ∀ h, (∃ c ∈ cand1, cast_ray c = some h) ↔
        ∃ c ∈ cand2, cast_ray c = some h := by
      intro h
      constructor
      · rintro ⟨c, hc, hcast⟩
        exact ⟨c, hperm.mem_iff.mp hc, hcast⟩
      · rintro ⟨c, hc, hcast⟩
        exact ⟨c, hperm.mem_iff.mpr hc, hcast⟩
    have hc1 : ¬ (cand1.isEmpty = true) := by simpa [List.isEmpty_iff] using h1
    have hc2 : ¬ (cand2.isEmpty = true) := by simpa [List.isEmpty_iff] using h2
    rw [narrow_phase_raycast_one_seeded, narrow_phase_raycast_one_seeded,
      if_neg hc1, if_neg hc2]
    dsimp only
    have hm1 : ∀ h : RayCastHit,
        ((h ∈ ord1 (cand1.foldl
          (fun s c =>
            match cast_ray c with
            | some hh => hash_set_insert hh s
            | none => s) [])) ↔ ∃ c ∈ cand1, cast_ray c = some h) := by
      intro h
      rw [hord1]
      simpa using collect_hits_mem cast_ray cand1 h []
    have hm2 : ∀ h : RayCastHit,
        ((h ∈ ord2 (cand2.foldl
          (fun s c =>
            match cast_ray c with
            | some hh => hash_set_insert hh s
            | none => s) [])) ↔ ∃ c ∈ cand2, cast_ray c = some h) := by
      intro h
      rw [hord2]
      simpa using collect_hits_mem cast_ray cand2 h []
    have hp1 : ∀ h : RayCastHit,
        ((h ∈ ord1 (rc.hits.foldl (fun s hh => hash_set_insert hh s) [])) ↔
          h ∈ rc.hits) := by
      intro h
      rw [hord1]
      simpa using fold_insert_mem rc.hits h []
    have hp2 : ∀ h : RayCastHit,
        ((h ∈ ord2 (rc.hits.foldl (fun s hh => hash_set_insert hh s) [])) ↔
          h ∈ rc.hits) := by
      intro h
      rw [hord2]
      simpa using fold_insert_mem rc.hits h []
    refine ⟨rfl, ?_, ?_, ?_⟩
    · intro h
      rw [hm1 h, hm2 h]
      exact hex h
    · intro h
      simp only [List.mem_filter, decide_eq_true_eq]
      constructor
      · rintro ⟨hh, hnp⟩
        exact ⟨(hm2 h).mpr ((hex h).mp ((hm1 h).mp hh)),
          fun hc => hnp ((hp1 h).mpr ((hp2 h).mp hc))⟩
      · rintro ⟨hh, hnp⟩
        exact ⟨(hm1 h).mpr ((hex h).mpr ((hm2 h).mp hh)),
          fun hc => hnp ((hp2 h).mpr ((hp1 h).mp hc))⟩
    · intro h
      simp only [List.mem_filter, decide_eq_true_eq]
      constructor
      · rintro ⟨hh, hnc⟩
        exact ⟨(hp2 h).mpr ((hp1 h).mp hh),
          fun hc => hnc ((hm1 h).mpr ((hex h).mpr ((hm2 h).mp hc)))⟩
      · rintro ⟨hh, hnc⟩
        exact ⟨(hp1 h).mpr ((hp2 h).mp hh),
          fun hc => hnc ((hm2 h).mpr ((hex h).mp ((hm1 h).mp hc)))⟩

/-- Witness for the amended C4: two iteration orders of the same
two-candidate set, one run enumerating its hit sets in insertion order
and the other in reversed order. -/
theorem c4_witness :
    (narrow_phase_raycast_one_seeded (fun l => l) cex4_cast [1, 2] cex4_rc).2 =
      (narrow_phase_raycast_one_seeded (fun l => l.reverse) cex4_cast [2, 1] cex4_rc).2 ∧
    (∀ h, h ∈ (narrow_phase_raycast_one_seeded (fun l => l) cex4_cast [1, 2] cex4_rc).1.hits ↔
      h ∈ (narrow_phase_raycast_one_seeded (fun l => l.reverse) cex4_cast [2, 1] cex4_rc).1.hits) ∧
    (∀ h, h ∈ (narrow_phase_raycast_one_seeded (fun l => l) cex4_cast [1, 2] cex4_rc).1.added_hits ↔
      h ∈ (narrow_phase_raycast_one_seeded (fun l => l.reverse) cex4_cast [2, 1] cex4_rc).1.added_hits) ∧
    (∀ h, h ∈ (narrow_phase_raycast_one_seeded (fun l => l) cex4_cast [1, 2] cex4_rc).1.removed_hits ↔
      h ∈ (narrow_phase_raycast_one_seeded (fun l => l.reverse) cex4_cast [2, 1] cex4_rc).1.removed_hits) :=
  c4_raycast_writeback_perm (fun l => l) (fun l => l.reverse) cex4_cast [1, 2] [2, 1]
    cex4_rc (fun _ _ => Iff.rfl) (fun _ _ => List.mem_reverse)
    (List.Perm.swap 2 1 [])

end SpacetimePhysics
